import Mathlib

/-!
# Virat v Thanos: a grid maze game

A shallow embedding of `Main.cpp` (the tile map, the three mobile entities, collision
resolution and the session state machine) together with theorems about it.

Modelling conventions

* `int` values are mathematical integers (`Int`); `size_t` values are natural numbers.
  Grid coordinates stay far below the machine limits, signed overflow (undefined in C++)
  is not modelled.
* `float` values (`dt`, `timeScale`, the bullet's `moveTimer`) are exact rationals.
* An `sf::Clock` is the instant at which it was last restarted; every operation that reads
  or restarts a clock receives the current instant `now`.
* `rand()` is a stream `rand : Nat → Nat` of non-negative draws together with the number of
  draws already consumed.
* A text file is its character content (`none` when the file cannot be opened); the file
  system maps a file name to that content.
* Rendering, textures, fonts and console output carry no state that the logic reads back and
  are left out; the three `sf::Text` objects are kept as the strings they display.
-/

namespace MazeGame

/-! ## Global definitions -/

def WALL_CHAR : Char := '#'
def PATH_CHAR : Char := ' '
def PLAYER_CHAR : Char := 'P'
def ITEM_CHAR : Char := '*'
def ENEMY_CHAR : Char := 'X'
def ENEMY_MOVE_INTERVAL : ℚ := 1
def SHOOT_COOLDOWN : ℚ := 3 / 10
def BULLET_TIME_PER_STEP : ℚ := 1 / 20

/-- The `sf::Vector2i` pair of `int` coordinates. -/
structure Vector2i where
  x : Int
  y : Int
  deriving DecidableEq, Repr

/-! ## Level -/

/-- The data members of `Level` that the logic reads: `grid`, `width`, `height`. -/
structure Level where
  grid : List (List Char)
  width : Nat
  height : Nat
  deriving DecidableEq, Repr

/-- The constructor `Level::Level()`: an empty grid with `width(0), height(0)`. -/
def Level.new : Level :=
  { grid := [], width := 0, height := 0 }

/-- Successive `std::getline` calls on a stream: `cur` holds the characters of the line
being read, most recent first. A line ends at a newline (which is dropped) or at the end of
the content; at the end of the content an empty remainder yields no further line. -/
def getLinesAux : List Char → List Char → List (List Char)
  | [], cur => if cur.isEmpty then [] else [cur.reverse]
  | c :: cs, cur =>
    if c = Char.ofNat 10 then cur.reverse :: getLinesAux cs [] else getLinesAux cs (c :: cur)

/-- All lines that the loop `while (getline(inputFile, line))` sees. -/
def getLines (content : List Char) : List (List Char) :=
  getLinesAux content []

/-- The `while (getline ...)` loop of `Level::loadFromFile` over the remaining lines, with
the loop state `grid`, `tempWidth`, `firstLine`. The first component is `false` when the
loop left through the early `return false` on an inconsistent line length. -/
def Level.readLines : List (List Char) → List (List Char) → Nat → Bool →
    Bool × List (List Char) × Nat
  | [], grid, tempWidth, _ => (true, grid, tempWidth)
  | line :: rest, grid, tempWidth, firstLine =>
    if line.isEmpty then Level.readLines rest grid tempWidth firstLine
    else if firstLine then Level.readLines rest (grid ++ [line]) line.length false
    else if line.length != tempWidth then (false, grid, tempWidth)
    else Level.readLines rest (grid ++ [line]) tempWidth firstLine

/-- The method `Level::loadFromFile`; `file` is the content of the named file, `none` when
it cannot be opened. Returns the boolean result and the level afterwards. -/
def Level.loadFromFile (L : Level) (file : Option (List Char)) : Bool × Level :=
  match file with
  | none => (false, L)
  | some content =>
    match Level.readLines (getLines content) [] 0 true with
    | (false, grid, _) => (false, { L with grid := grid })
    | (true, grid, tempWidth) =>
      if grid.isEmpty then (false, { grid := grid, width := 0, height := 0 })
      else (true, { grid := grid, width := tempWidth, height := grid.length })

/-- The method `Level::saveToFile` on a file that can be opened: every row followed by
`endl`. -/
def Level.saveToFile (L : Level) : List Char :=
  (L.grid.map (fun row => row ++ [Char.ofNat 10])).flatten

/-- The method `Level::isValid`. -/
def Level.isValid (L : Level) (x y : Int) : Bool :=
  decide (x ≥ 0) && decide (x.toNat < L.width) && decide (y ≥ 0) && decide (y.toNat < L.height)

/-- The expression `grid[static_cast<size_t>(y)][static_cast<size_t>(x)]`. Indexing past the
stored rows is undefined in the source; here it reads the NUL character. -/
def Level.gridAt (L : Level) (x y : Int) : Char :=
  (L.grid.getD y.toNat []).getD x.toNat (Char.ofNat 0)

/-- The method `Level::getCell`. -/
def Level.getCell (L : Level) (x y : Int) : Char :=
  if !L.isValid x y then WALL_CHAR else L.gridAt x y

/-- The method `Level::setCell` (the warning on the other branch is console output). -/
def Level.setCell (L : Level) (x y : Int) (type : Char) : Level :=
  if L.isValid x y then
    { L with grid := L.grid.set y.toNat ((L.grid.getD y.toNat []).set x.toNat type) }
  else L

/-- The method `Level::isWall`. -/
def Level.isWall (L : Level) (x y : Int) : Bool :=
  if !L.isValid x y then true else L.gridAt x y == WALL_CHAR

/-- The method `Level::isPath`. -/
def Level.isPath (L : Level) (x y : Int) : Bool :=
  if !L.isValid x y then false
  else
    let cell := L.gridAt x y
    cell == PATH_CHAR || cell == ITEM_CHAR || cell == PLAYER_CHAR || cell == ENEMY_CHAR

/-- The method `Level::isItem`. -/
def Level.isItem (L : Level) (x y : Int) : Bool :=
  if !L.isValid x y then false else L.gridAt x y == ITEM_CHAR

/-- The method `Level::isEnemySpawn`. -/
def Level.isEnemySpawn (L : Level) (x y : Int) : Bool :=
  if !L.isValid x y then false else L.gridAt x y == ENEMY_CHAR

/-- The coordinates `(x, y)` with `y < height`, `x < width` in the order in which the nested
loops `for y ... for x ...` visit them. -/
def Level.cells (L : Level) : List (Nat × Nat) :=
  (List.range L.height).flatMap (fun y => (List.range L.width).map (fun x => (x, y)))

/-- The method `Level::findChar`: the first cell in loop order holding `target`, or
`(-1, -1)`. -/
def Level.findChar (L : Level) (target : Char) : Vector2i :=
  match L.cells.find? (fun c => L.gridAt (Int.ofNat c.1) (Int.ofNat c.2) == target) with
  | some c => { x := Int.ofNat c.1, y := Int.ofNat c.2 }
  | none => { x := -1, y := -1 }

/-! ## Entities -/

/-- The class `Bullet`: the `Entity` members `position`, `active`, then `velocity` and
`moveTimer`. -/
structure Bullet where
  position : Vector2i
  active : Bool
  velocity : Vector2i
  moveTimer : ℚ
  deriving DecidableEq, Repr

/-- The constructor `Bullet::Bullet(startX, startY, dirX, dirY)`. -/
def Bullet.new (startX startY dirX dirY : Int) : Bullet :=
  { position := { x := startX, y := startY }, active := true,
    velocity := { x := dirX, y := dirY }, moveTimer := 0 }

/-- The method `Entity::destroy` on a bullet. -/
def Bullet.destroy (b : Bullet) : Bullet :=
  { b with active := false }

/-- The loop `while (moveTimer >= timePerStep && active)` of `Bullet::update`, run for at
most the given number of iterations. -/
def Bullet.stepLoop (level : Level) : Nat → Bullet → Bullet
  | 0, b => b
  | n + 1, b =>
    if decide (b.moveTimer ≥ BULLET_TIME_PER_STEP) && b.active then
      let b1 : Bullet := { b with moveTimer := b.moveTimer - BULLET_TIME_PER_STEP }
      let nextX := b1.position.x + b1.velocity.x
      let nextY := b1.position.y + b1.velocity.y
      if !level.isValid nextX nextY || level.isWall nextX nextY then b1.destroy
      else Bullet.stepLoop level n { b1 with position := { x := nextX, y := nextY } }
    else b

/-- The number of whole steps contained in the accumulated time: the loop of
`Bullet::update` cannot run more often than this, see `Bullet.update_loop_exit`. -/
def Bullet.stepBound (b : Bullet) : Nat :=
  (Rat.floor (b.moveTimer / BULLET_TIME_PER_STEP)).toNat

/-- The method `Bullet::update(dt, level, ...)`. -/
def Bullet.update (b : Bullet) (dt : ℚ) (level : Level) : Bullet :=
  if !b.active then b
  else
    let b0 : Bullet := { b with moveTimer := b.moveTimer + dt }
    Bullet.stepLoop level b0.stepBound b0

/-- The class `Player`: `position`, `active`, `score`, `facingDirection` and the clock
`shootTimer` (the instant of its last restart). -/
structure Player where
  position : Vector2i
  active : Bool
  score : Int
  facingDirection : Vector2i
  shootTimer : ℚ
  deriving DecidableEq, Repr

/-- The constructor `Player::Player(startX, startY, texture)` executed at instant `now`. -/
def Player.new (startX startY : Int) (now : ℚ) : Player :=
  { position := { x := startX, y := startY }, active := true, score := 0,
    facingDirection := { x := 0, y := -1 }, shootTimer := now }

/-- The method `Entity::destroy` on the player. -/
def Player.destroy (p : Player) : Player :=
  { p with active := false }

/-- The method `Player::addScore`. -/
def Player.addScore (p : Player) (points : Int) : Player :=
  { p with score := p.score + points }

/-- The method `Player::reset` executed at instant `now`. -/
def Player.reset (p : Player) (now : ℚ) : Player :=
  { p with score := 0, active := true, facingDirection := { x := 0, y := -1 },
           shootTimer := now }

/-- The method `Player::setPosition`. -/
def Player.setPosition (p : Player) (x y : Int) : Player :=
  { p with position := { x := x, y := y } }

/-- What a `Player` method leaves behind: the player, the level and the bullet collection it
was given by reference, and the message of its call `game.setGameOver(...)`, if it made one. -/
structure PlayerEffect where
  player : Player
  level : Level
  bullets : List Bullet
  gameOver : Option String
  deriving DecidableEq, Repr

/-- The method `Player::tryMove(dx, dy, level, game)`. -/
def Player.tryMove (p : Player) (dx dy : Int) (level : Level) (bullets : List Bullet) :
    PlayerEffect :=
  if !p.active then { player := p, level := level, bullets := bullets, gameOver := none }
  else
    let nextX := p.position.x + dx
    let nextY := p.position.y + dy
    if level.isWall nextX nextY then
      { player := p.destroy, level := level, bullets := bullets,
        gameOver := some "You walked into a wall!" }
    else if !level.isValid nextX nextY then
      { player := p.destroy, level := level, bullets := bullets,
        gameOver := some "You fell off the edge!" }
    else
      let p1 : Player := { p with position := { x := nextX, y := nextY } }
      if level.isItem nextX nextY then
        { player := p1.addScore 10, level := level.setCell nextX nextY PATH_CHAR,
          bullets := bullets, gameOver := none }
      else { player := p1, level := level, bullets := bullets, gameOver := none }

/-- The method `Player::shoot(bullets, level)`. -/
def Player.shoot (p : Player) (bullets : List Bullet) (level : Level) : List Bullet :=
  let bulletStartX := p.position.x + p.facingDirection.x
  let bulletStartY := p.position.y + p.facingDirection.y
  if level.isValid bulletStartX bulletStartY && !level.isWall bulletStartX bulletStartY then
    bullets ++ [Bullet.new bulletStartX bulletStartY p.facingDirection.x p.facingDirection.y]
  else bullets

/-- The key codes of `sf::Keyboard::Key` that the program distinguishes. -/
inductive Key where
  | W | S | A | D | Space | P | R | Other
  deriving DecidableEq, Repr

/-- The values of `dx` and `dy` that the `switch` of `Player::handleInput` sets for a key. -/
def Key.delta : Key → Int × Int
  | Key.W => (0, -1)
  | Key.S => (0, 1)
  | Key.A => (-1, 0)
  | Key.D => (1, 0)
  | _ => (0, 0)

/-- The method `Player::handleInput(key, level, bullets, game)` executed at instant `now`. -/
def Player.handleInput (p : Player) (key : Key) (level : Level) (bullets : List Bullet)
    (now : ℚ) : PlayerEffect :=
  let idle : PlayerEffect := { player := p, level := level, bullets := bullets, gameOver := none }
  let move (dx dy : Int) : PlayerEffect :=
    if dx != 0 || dy != 0 then
      Player.tryMove { p with facingDirection := { x := dx, y := dy } } dx dy level bullets
    else idle
  if !p.active then idle
  else
    match key with
    | Key.W => move 0 (-1)
    | Key.S => move 0 1
    | Key.A => move (-1) 0
    | Key.D => move 1 0
    | Key.Space =>
      if now - p.shootTimer ≥ SHOOT_COOLDOWN then
        { player := { p with shootTimer := now }, level := level,
          bullets := p.shoot bullets level, gameOver := none }
      else idle
    | _ => idle

/-- The class `Enemy`: `position`, `active` and the clock `moveTimer` (the instant of its
last restart). -/
structure Enemy where
  position : Vector2i
  active : Bool
  moveTimer : ℚ
  deriving DecidableEq, Repr

/-- The constructor `Enemy::Enemy(startX, startY, texture)` executed at instant `now`. -/
def Enemy.new (startX startY : Int) (now : ℚ) : Enemy :=
  { position := { x := startX, y := startY }, active := true, moveTimer := now }

/-- The method `Entity::destroy` on an enemy. -/
def Enemy.destroy (e : Enemy) : Enemy :=
  { e with active := false }

/-- The method `Enemy::tryMoveRandom(level)`; `k` counts the draws of `rand()` made so far.
Returns the enemy, the boolean result and the new draw count. -/
def Enemy.tryMoveRandom (e : Enemy) (level : Level) (rand : Nat → Nat) (k : Nat) :
    Enemy × Bool × Nat :=
  if !e.active then (e, false, k)
  else
    let direction := rand k % 5
    let d : Option (Int × Int) :=
      match direction with
      | 0 => some (0, -1)
      | 1 => some (0, 1)
      | 2 => some (-1, 0)
      | 3 => some (1, 0)
      | _ => none
    match d with
    | none => (e, false, k + 1)
    | some (dx, dy) =>
      let nextX := e.position.x + dx
      let nextY := e.position.y + dy
      if level.isValid nextX nextY && !level.isWall nextX nextY && !level.isItem nextX nextY then
        ({ e with position := { x := nextX, y := nextY } }, true, k + 1)
      else (e, false, k + 1)

/-- The method `Enemy::update(dt, level, ...)` executed at instant `now`. Returns the enemy
and the new draw count. -/
def Enemy.update (e : Enemy) (now : ℚ) (level : Level) (rand : Nat → Nat) (k : Nat) :
    Enemy × Nat :=
  if !e.active then (e, k)
  else if now - e.moveTimer ≥ ENEMY_MOVE_INTERVAL then
    let r := e.tryMoveRandom level rand k
    ({ r.1 with moveTimer := now }, r.2.2)
  else (e, k)

/-! ## Game -/

/-- The enumeration `GameState`. -/
inductive GameState where
  | Playing | Paused | GameOver | Victory | LevelComplete
  deriving DecidableEq, Repr

/-- The events of `sf::Event` that `Game::processEvents` distinguishes. -/
inductive Event where
  | Closed
  | KeyPressed (code : Key)
  | Other
  deriving DecidableEq, Repr

/-- The file system: the content of the file with the given name, `none` when it cannot be
opened. -/
abbrev Files := String → Option (List Char)

/-- The data members of `Game` that the logic reads; `windowOpen` is `window.isOpen()`. -/
structure Game where
  windowOpen : Bool
  currentLevelData : Level
  player_ptr : Option Player
  enemies : List Enemy
  bullets : List Bullet
  currentState : GameState
  currentLevelIndex : Int
  totalLevels : Int
  timeScale : ℚ
  scoreText : String
  levelText : String
  messageText : String
  deriving DecidableEq, Repr

/-- The expression `player_ptr && player_ptr->isActive()`. -/
def Game.playerActive (g : Game) : Bool :=
  match g.player_ptr with
  | some p => p.active
  | none => false

/-- The expression `player_ptr ? to_string(player_ptr->getScore()) : "N/A"`. -/
def Game.scoreStr (g : Game) : String :=
  match g.player_ptr with
  | some p => toString p.score
  | none => "N/A"

/-- The statement `if (player_ptr && player_ptr->isActive()) player_ptr->destroy();`. -/
def Game.destroyPlayer (g : Game) : Game :=
  match g.player_ptr with
  | some p => if p.active then { g with player_ptr := some p.destroy } else g
  | none => g

/-- The method `Game::setGameOver(message)`. -/
def Game.setGameOver (g : Game) (message : String) : Game :=
  if g.currentState == GameState.Playing then
    Game.destroyPlayer
      { g with currentState := GameState.GameOver, timeScale := 0,
               messageText := "GAME OVER!\n" ++ message ++ "\nPress R to Restart" }
  else g

/-- The method `Game::updateUI`. -/
def Game.updateUI (g : Game) : Game :=
  { g with scoreText := "Score: " ++ g.scoreStr,
           levelText := "Level: " ++ toString g.currentLevelIndex }

/-- The search of `Game::setupLevel` for the player's start cell. -/
def Game.playerStart (level : Level) : Vector2i :=
  let found := level.findChar PLAYER_CHAR
  if found.x == -1 then
    if level.isWall 1 1 then
      match level.cells.find? (fun c => !level.isWall (Int.ofNat c.1) (Int.ofNat c.2)) with
      | some c => { x := Int.ofNat c.1, y := Int.ofNat c.2 }
      | none => { x := 0, y := 0 }
    else { x := 1, y := 1 }
  else found

/-- The enemy loop of `Game::setupLevel`: one enemy per cell holding `ENEMY_CHAR`, in loop
order, constructed at instant `now`. -/
def Game.spawnEnemies (level : Level) (now : ℚ) : List Enemy :=
  (level.cells.filter
      (fun c => level.getCell (Int.ofNat c.1) (Int.ofNat c.2) == ENEMY_CHAR)).map
    (fun c => Enemy.new (Int.ofNat c.1) (Int.ofNat c.2) now)

/-- The method `Game::setupLevel` executed at instant `now`. -/
def Game.setupLevel (g : Game) (now : ℚ) : Game :=
  let g1 : Game := { g with bullets := [], enemies := [] }
  match g1.player_ptr with
  | none =>
    { g1 with currentState := GameState.GameOver, messageText := "FATAL:\nPlayer setup fail." }
  | some p =>
    let playerStart := Game.playerStart g1.currentLevelData
    let p1 := (p.reset now).setPosition playerStart.x playerStart.y
    Game.updateUI
      { g1 with player_ptr := some p1, enemies := Game.spawnEnemies g1.currentLevelData now }

/-- The file name `"level" + to_string(levelNumber) + ".txt"`. -/
def levelFileName (levelNumber : Int) : String :=
  "level" ++ toString levelNumber ++ ".txt"

/-- The body of `Game::loadLevel(levelNumber)`; `recurse` stands for the call `loadLevel(1)`
made when a level other than the first fails to load. -/
def Game.loadLevelBody (recurse : Game → Game) (g : Game) (fs : Files) (now : ℚ)
    (levelNumber : Int) : Game :=
  let r := g.currentLevelData.loadFromFile (fs (levelFileName levelNumber))
  let g1 : Game := { g with currentLevelData := r.2 }
  if !r.1 then
    if levelNumber != 1 then recurse g1
    else g1.setGameOver "FATAL: Cannot load level1.txt!"
  else
    let g2 : Game := { g1 with currentLevelIndex := levelNumber }
    match g2.player_ptr with
    | some _ =>
      { g2.setupLevel now with currentState := GameState.Playing, timeScale := 1,
                               messageText := "" }
    | none => g2.setGameOver "FATAL: Player null during loadLevel!"

/-- The call `loadLevel(1)`: with `levelNumber == 1` the body never reaches its recursive
call. -/
def Game.loadLevelFirst (g : Game) (fs : Files) (now : ℚ) : Game :=
  Game.loadLevelBody id g fs now 1

/-- The method `Game::loadLevel(levelNumber)` executed at instant `now`: its only recursive
call is `loadLevel(1)`. -/
def Game.loadLevel (g : Game) (fs : Files) (now : ℚ) (levelNumber : Int) : Game :=
  Game.loadLevelBody (fun g1 => g1.loadLevelFirst fs now) g fs now levelNumber

/-- The victory block shared by `Game::update` and `Game::nextLevel`. -/
def Game.setVictory (g : Game) : Game :=
  Game.destroyPlayer
    { g with currentState := GameState.Victory,
             messageText := "YOU WIN!\nScore: " ++ g.scoreStr ++ "\nPress R" }

/-- The method `Game::nextLevel`. -/
def Game.nextLevel (g : Game) (fs : Files) (now : ℚ) : Game :=
  if g.currentLevelIndex < g.totalLevels then
    Game.loadLevel { g with currentLevelIndex := g.currentLevelIndex + 1 } fs now
      (g.currentLevelIndex + 1)
  else if g.currentState != GameState.Victory then g.setVictory
  else g

/-- The method `Game::resetGame`. -/
def Game.resetGame (g : Game) (fs : Files) (now : ℚ) : Game :=
  Game.loadLevel
    { g with currentState := GameState.Playing, timeScale := 1, currentLevelIndex := 1,
             messageText := "" } fs now 1

/-- The inner loop of the bullet pass of `Game::checkCollisions`: the first active enemy
standing on `bPos` is destroyed; `none` when no enemy is hit. -/
def hitFirstEnemy (bPos : Vector2i) : List Enemy → Option (List Enemy)
  | [] => none
  | e :: es =>
    if e.active && e.position == bPos then some (e.destroy :: es)
    else (hitFirstEnemy bPos es).map (fun es1 => e :: es1)

/-- The outer loop `for (auto& bullet_ptr : bullets)` of `Game::checkCollisions`, threading
the enemy collection and the player. -/
def bulletsVsEnemies : List Bullet → List Enemy → Option Player →
    List Bullet × List Enemy × Option Player
  | [], enemies, player => ([], enemies, player)
  | b :: bs, enemies, player =>
    if !b.active then
      let r := bulletsVsEnemies bs enemies player
      (b :: r.1, r.2.1, r.2.2)
    else
      match hitFirstEnemy b.position enemies with
      | some enemies1 =>
        let r := bulletsVsEnemies bs enemies1 (player.map (fun p => p.addScore 50))
        (b.destroy :: r.1, r.2.1, r.2.2)
      | none =>
        let r := bulletsVsEnemies bs enemies player
        (b :: r.1, r.2.1, r.2.2)

/-- The method `Game::checkCollisions`. -/
def Game.checkCollisions (g : Game) : Game :=
  if g.currentState != GameState.Playing || !g.playerActive then g
  else
    match g.player_ptr with
    | none => g
    | some p =>
      let pPos := p.position
      if g.enemies.any (fun e => e.active && e.position == pPos) then
        g.setGameOver "Caught by an enemy!"
      else
        let r := bulletsVsEnemies g.bullets g.enemies g.player_ptr
        { g with bullets := r.1, enemies := r.2.1, player_ptr := r.2.2 }

/-- The method `Game::cleanupEntities`. -/
def Game.cleanupEntities (g : Game) : Game :=
  { g with bullets := g.bullets.filter (fun b => b.active),
           enemies := g.enemies.filter (fun e => e.active) }

/-- The loop `for (auto& enemy : enemies) if (enemy.isActive()) enemy.update(...)` of
`Game::update`, threading the draw count. -/
def updateEnemies (now : ℚ) (level : Level) (rand : Nat → Nat) : Nat → List Enemy → List Enemy
  | _, [] => []
  | k, e :: es =>
    if e.active then
      let r := e.update now level rand k
      r.1 :: updateEnemies now level rand r.2 es
    else e :: updateEnemies now level rand k es

/-- The loop `for (auto& bullet_ptr : bullets) if (bullet_ptr->isActive()) ...update(...)`
of `Game::update`. -/
def updateBullets (dt : ℚ) (level : Level) (bullets : List Bullet) : List Bullet :=
  bullets.map (fun b => if b.active then b.update dt level else b)

/-- The two entity loops of `Game::update`. -/
def Game.updateEntities (g : Game) (dt now : ℚ) (rand : Nat → Nat) : Game :=
  { g with enemies := updateEnemies now g.currentLevelData rand 0 g.enemies,
           bullets := updateBullets dt g.currentLevelData g.bullets }

/-- The tail of `Game::update` after `cleanupEntities()`: the level-advance or victory
decision and the closing `updateUI()`. -/
def Game.checkProgress (g : Game) (fs : Files) (now : ℚ) : Game :=
  let enemiesRemaining := g.enemies.any (fun e => e.active)
  let g1 : Game :=
    if !enemiesRemaining && g.currentState == GameState.Playing then
      if g.currentLevelIndex < g.totalLevels then g.nextLevel fs now
      else g.setVictory
    else g
  if g1.currentState == GameState.Playing || g1.currentState == GameState.Paused then
    g1.updateUI
  else g1

/-- The method `Game::update(dt)` executed at instant `now`; `Player::update` has no
effect. -/
def Game.update (g : Game) (fs : Files) (dt now : ℚ) (rand : Nat → Nat) : Game :=
  if g.currentState != GameState.Playing || !g.playerActive then g
  else
    let g1 := (g.updateEntities dt now rand).checkCollisions
    if g1.currentState != GameState.Playing then g1
    else g1.cleanupEntities.checkProgress fs now

/-- The body of the event loop of `Game::processEvents` for one polled event. -/
def Game.processEvent (g : Game) (fs : Files) (now : ℚ) (event : Event) : Game :=
  match event with
  | Event.Closed => { g with windowOpen := false }
  | Event.Other => g
  | Event.KeyPressed code =>
    if code == Key.P then
      if g.currentState == GameState.Playing then
        { g with currentState := GameState.Paused, timeScale := 0,
                 messageText := "PAUSED\nPress P" }
      else if g.currentState == GameState.Paused then
        { g with currentState := GameState.Playing, timeScale := 1, messageText := "" }
      else g
    else if (g.currentState == GameState.GameOver || g.currentState == GameState.Victory)
        && code == Key.R then
      g.resetGame fs now
    else if g.currentState == GameState.Playing && g.playerActive then
      match g.player_ptr with
      | none => g
      | some p =>
        let r := p.handleInput code g.currentLevelData g.bullets now
        let g1 : Game :=
          { g with player_ptr := some r.player, currentLevelData := r.level,
                   bullets := r.bullets }
        match r.gameOver with
        | some message => g1.setGameOver message
        | none => g1
    else g

/-- The method `Game::processEvents` on the queue of pending events; a closed window polls
no further event. -/
def Game.processEvents (g : Game) (fs : Files) (now : ℚ) : List Event → Game
  | [] => g
  | event :: rest =>
    if g.windowOpen then Game.processEvents (g.processEvent fs now event) fs now rest
    else g

/-- The constructor `Game::Game()` executed at instant `now`; `texturesOk` is the result of
`loadTextures()`. -/
def Game.new (texturesOk : Bool) (fs : Files) (now : ℚ) : Game :=
  let g0 : Game :=
    { windowOpen := true, currentLevelData := Level.new, player_ptr := none, enemies := [],
      bullets := [], currentState := GameState.Playing, currentLevelIndex := 1,
      totalLevels := 2, timeScale := 1, scoreText := "", levelText := "", messageText := "" }
  if !texturesOk then
    { g0 with currentState := GameState.GameOver, windowOpen := false,
              messageText := "FATAL ERROR:\nTextures missing." }
  else
    Game.loadLevel { g0 with player_ptr := some (Player.new 0 0 now) } fs now 1

/-- One iteration of the loop of `Game::run`: `elapsed` is the reading of the frame clock,
`events` the pending events. -/
def Game.frame (g : Game) (fs : Files) (elapsed now : ℚ) (rand : Nat → Nat)
    (events : List Event) : Game :=
  let dt := elapsed * g.timeScale
  let g1 := g.processEvents fs now events
  if g1.currentState == GameState.Playing then g1.update fs dt now rand else g1

/-- The direction that the `switch (direction)` of `Enemy::tryMoveRandom` selects for the
draw `r`: up, down, left, right, or none for "stay" (where the method returns at once). -/
def Enemy.direction (r : Nat) : Option (Int × Int) :=
  if r % 5 = 0 then some (0, -1)
  else if r % 5 = 1 then some (0, 1)
  else if r % 5 = 2 then some (-1, 0)
  else if r % 5 = 3 then some (1, 0)
  else none

/-- The method `Game::loadLevel(levelNumber)` as the source writes it, with its recursive
call; the first argument bounds the depth of calls, `none` means the bound was reached. -/
def Game.loadLevelFuel : Nat → Game → Files → ℚ → Int → Option Game
  | 0, _, _, _, _ => none
  | fuel + 1, g, fs, now, levelNumber =>
    let r := g.currentLevelData.loadFromFile (fs (levelFileName levelNumber))
    let g1 : Game := { g with currentLevelData := r.2 }
    if !r.1 then
      if levelNumber != 1 then Game.loadLevelFuel fuel g1 fs now 1
      else some (g1.setGameOver "FATAL: Cannot load level1.txt!")
    else
      let g2 : Game := { g1 with currentLevelIndex := levelNumber }
      match g2.player_ptr with
      | some _ =>
        some { g2.setupLevel now with currentState := GameState.Playing, timeScale := 1,
                                      messageText := "" }
      | none => some (g2.setGameOver "FATAL: Player null during loadLevel!")

/-- The level states that a newly constructed `Level` reaches through calls of
`loadFromFile` and `setCell`. -/
inductive Level.Reachable : Level → Prop where
  | new : Level.Reachable Level.new
  | load (L : Level) (file : Option (List Char)) :
      Level.Reachable L → Level.Reachable (L.loadFromFile file).2
  | set (L : Level) (x y : Int) (type : Char) :
      Level.Reachable L → Level.Reachable (L.setCell x y type)

/-- The sessions that the constructed `Game` reaches through calls of `processEvents` and
`update`, whatever the files, instants, draws and events are. -/
inductive Game.Reachable : Game → Prop where
  | new (texturesOk : Bool) (fs : Files) (now : ℚ) :
      Game.Reachable (Game.new texturesOk fs now)
  | events (g : Game) (fs : Files) (now : ℚ) (events : List Event) :
      Game.Reachable g → Game.Reachable (g.processEvents fs now events)
  | update (g : Game) (fs : Files) (dt now : ℚ) (rand : Nat → Nat) :
      Game.Reachable g → Game.Reachable (g.update fs dt now rand)

/-- The rows of a level source that `Level::loadFromFile` keeps: its lines without the blank
ones, which the loop skips. -/
def sourceRows (content : List Char) : List (List Char) :=
  (getLines content).filter (fun line => !line.isEmpty)

/-- The shape that the queries of `Level` rely on when they index `grid[y][x]` after
`isValid`: `height` stored rows, each of length `width`. -/
def Level.WellShaped (L : Level) : Prop :=
  L.grid.length = L.height ∧ ∀ row ∈ L.grid, row.length = L.width

/-- The cell `v` is the first in-bounds cell in row-major order for which `good` holds. -/
def Level.FirstCell (L : Level) (good : Int → Int → Bool) (v : Vector2i) : Prop :=
  L.isValid v.x v.y = true ∧ good v.x v.y = true ∧
    ∀ x y : Int, L.isValid x y = true → (y < v.y ∨ (y = v.y ∧ x < v.x)) → good x y = false

/-- The sessions reached from `g0` by player inputs and update steps: any polled event that is
not a restart (key R in phase GameOver or Victory), and any call of `update`. -/
inductive Game.PlaysFrom (g0 : Game) : Game → Prop where
  | start : Game.PlaysFrom g0 g0
  | input (g : Game) (fs : Files) (now : ℚ) (event : Event) :
      ¬ (event = Event.KeyPressed Key.R ∧
          (g.currentState = GameState.GameOver ∨ g.currentState = GameState.Victory)) →
      Game.PlaysFrom g0 g → Game.PlaysFrom g0 (g.processEvent fs now event)
  | update (g : Game) (fs : Files) (dt now : ℚ) (rand : Nat → Nat) :
      Game.PlaysFrom g0 g → Game.PlaysFrom g0 (g.update fs dt now rand)

/-- The position `v` is an in-bounds cell of `L` that is neither a wall nor an item tile. -/
def Level.FreeCell (L : Level) (v : Vector2i) : Prop :=
  L.isValid v.x v.y = true ∧ L.isWall v.x v.y = false ∧ L.isItem v.x v.y = false

/-! ## Example data -/

/-- A loaded two-by-two level. -/
def squareLevel : Level :=
  { grid := [['a', 'b'], ['c', 'd']], width := 2, height := 2 }

/-- A level source whose second row is shorter than its first. -/
def raggedSource : List Char :=
  ['a', 'b', Char.ofNat 10, 'c', Char.ofNat 10]

/-- The source of a three-by-three room: border walls around the player's start cell. -/
def roomSource : List Char :=
  ['#', '#', '#', Char.ofNat 10, '#', 'P', '#', Char.ofNat 10, '#', '#', '#', Char.ofNat 10]

/-- A file system whose two level files both hold the empty room. -/
def emptyRooms : Files :=
  fun name => if name = "level1.txt" ∨ name = "level2.txt" then some roomSource else none

/-- A stream of draws that always selects "stay". -/
def stayDraws : Nat → Nat :=
  fun _ => 4

/-- The three-by-three level of the shooting scenario with the cell above the player opened:
`# #`, `#P#`, `#X#`. -/
def shaftLevel : Level :=
  { grid := [['#', ' ', '#'], ['#', 'P', '#'], ['#', 'X', '#']], width := 3, height := 3 }

/-- A bullet on the player's cell of `shaftLevel`, flying up. -/
def shaftBullet : Bullet :=
  Bullet.new 1 1 0 (-1)

/-- A session in which one bullet shares its cell with two enemies. -/
def duelGame : Game :=
  { windowOpen := true, currentLevelData := shaftLevel,
    player_ptr := some (Player.new 1 1 0),
    enemies := [Enemy.new 1 2 0, Enemy.new 1 0 0, Enemy.new 1 0 0],
    bullets := [(Bullet.new 1 1 0 (-1)).destroy, Bullet.new 1 0 0 (-1)],
    currentState := GameState.Playing, currentLevelIndex := 1, totalLevels := 2,
    timeScale := 1, scoreText := "", levelText := "", messageText := "" }

/-- A corridor with an item to the right of the player: `#####`, `#P*X#`, `#####`. -/
def itemLevel : Level :=
  { grid := [['#', '#', '#', '#', '#'], ['#', 'P', '*', 'X', '#'], ['#', '#', '#', '#', '#']],
    width := 5, height := 3 }

/-- The source of `itemLevel`. -/
def itemSource : List Char :=
  ['#', '#', '#', '#', '#', Char.ofNat 10, '#', 'P', '*', 'X', '#', Char.ofNat 10,
   '#', '#', '#', '#', '#', Char.ofNat 10]

/-- A file system with the empty room as first and the corridor as second level. -/
def twoLevels : Files :=
  fun name =>
    if name = "level1.txt" then some roomSource
    else if name = "level2.txt" then some itemSource
    else none

/-- A session on its last level whose only enemy shares its cell with a bullet. -/
def finalGame : Game :=
  { windowOpen := true, currentLevelData := shaftLevel,
    player_ptr := some (Player.new 1 1 0),
    enemies := [Enemy.new 1 0 0],
    bullets := [Bullet.new 1 0 0 (-1)],
    currentState := GameState.Playing, currentLevelIndex := 2, totalLevels := 2,
    timeScale := 1, scoreText := "", levelText := "", messageText := "" }

/-- The same session on the first of two levels. -/
def firstGame : Game :=
  { finalGame with currentLevelIndex := 1 }

/-- A file system whose first level is the corridor with an item. -/
def corridorFiles : Files :=
  fun name => if name = "level1.txt" then some itemSource else none

/-- A file system in which no file can be opened. -/
def noFiles : Files :=
  fun _ => none

/-- The session after the player collected the corridor's item and then walked into the wall
above it. -/
def crashedGame : Game :=
  (Game.new true corridorFiles 0).processEvents corridorFiles 1
    [Event.KeyPressed Key.D, Event.KeyPressed Key.W]

/-- The source of the scenario level: `###`, `#P#`, `#X#`. -/
def borderSource : List Char :=
  ['#', '#', '#', Char.ofNat 10, '#', 'P', '#', Char.ofNat 10, '#', 'X', '#', Char.ofNat 10]

/-- A file system whose first level is the scenario level. -/
def borderFiles : Files :=
  fun name => if name = "level1.txt" then some borderSource else none

/-- The source of `shaftLevel`. -/
def shaftSource : List Char :=
  ['#', ' ', '#', Char.ofNat 10, '#', 'P', '#', Char.ofNat 10, '#', 'X', '#', Char.ofNat 10]

/-- A file system whose first level is `shaftLevel`. -/
def shaftFiles : Files :=
  fun name => if name = "level1.txt" then some shaftSource else none

/-- A session in which an enemy stands on the player's cell while a bullet shares a cell with
another enemy. -/
def caughtGame : Game :=
  { duelGame with enemies := [Enemy.new 1 0 0, Enemy.new 1 1 0] }

/-- A level source with a blank line between its two rows. -/
def blankLineSource : List Char :=
  ['a', 'b', Char.ofNat 10, Char.ofNat 10, 'c', 'd', Char.ofNat 10]

/-- The source of `squareLevel`. -/
def squareSource : List Char :=
  ['a', 'b', Char.ofNat 10, 'c', 'd', Char.ofNat 10]

/-- The level after `squareSource` was loaded into a new `Level` and loading `raggedSource`
into it failed. -/
def staleLevel : Level :=
  ((Level.new.loadFromFile (some squareSource)).2.loadFromFile (some raggedSource)).2

/-- A session about to set up `itemLevel`. -/
def itemGame : Game :=
  { firstGame with currentLevelData := itemLevel }

/-! ## Level: bounds -/

theorem Level.isValid_iff (L : Level) (x y : Int) :
    L.isValid x y = true ↔ 0 ≤ x ∧ x < (L.width : Int) ∧ 0 ≤ y ∧ y < (L.height : Int) := by
  simp only [Level.isValid, Bool.and_eq_true, decide_eq_true_eq]
  omega

theorem Level.isValid_eq_false (L : Level) (x y : Int)
    (h : ¬ (0 ≤ x ∧ x < (L.width : Int) ∧ 0 ≤ y ∧ y < (L.height : Int))) :
    L.isValid x y = false := by
  rw [← Bool.not_eq_true, Level.isValid_iff]
  exact h

/-- C1: outside `[0,width) x [0,height)` the queries `isWall`, `isPath` and `getCell` answer
true, false and the wall character. -/
theorem Level.out_of_bounds_queries (L : Level) (x y : Int)
    (h : ¬ (0 ≤ x ∧ x < (L.width : Int) ∧ 0 ≤ y ∧ y < (L.height : Int))) :
    L.isWall x y = true ∧ L.isPath x y = false ∧ L.getCell x y = WALL_CHAR := by
  have hv := Level.isValid_eq_false L x y h
  simp [Level.isWall, Level.isPath, Level.getCell, hv]

theorem Level.out_of_bounds_queries_witness :
    squareLevel.isWall 2 0 = true ∧ squareLevel.isPath 2 0 = false ∧
      squareLevel.getCell 2 0 = WALL_CHAR :=
  Level.out_of_bounds_queries squareLevel 2 0 (by decide)

/-! ## Level: loading -/

theorem Level.readLines_true (lines : List (List Char)) :
    ∀ (grid : List (List Char)) (tempWidth : Nat) (firstLine : Bool)
      (grid1 : List (List Char)) (w : Nat),
      Level.readLines lines grid tempWidth firstLine = (true, grid1, w) →
      (∀ l ∈ lines, l ≠ [] → l.length = w) ∧ (firstLine = false → w = tempWidth) := by
  induction lines with
  | nil =>
    intro grid tempWidth firstLine grid1 w h
    simp only [Level.readLines, Prod.mk.injEq, true_and] at h
    simp [h.2]
  | cons line rest ih =>
    intro grid tempWidth firstLine grid1 w h
    rw [Level.readLines] at h
    by_cases hl : line = []
    · subst hl
      simp only [List.isEmpty_nil, if_true] at h
      obtain ⟨h1, h2⟩ := ih _ _ _ _ _ h
      refine ⟨?_, h2⟩
      intro l hmem hne
      rcases List.mem_cons.1 hmem with rfl | hmem
      · exact absurd rfl hne
      · exact h1 l hmem hne
    · have hne : line.isEmpty = false := by
        cases line with
        | nil => exact absurd rfl hl
        | cons _ _ => rfl
      simp only [hne, Bool.false_eq_true, if_false] at h
      cases firstLine with
      | true =>
        simp only [if_true] at h
        obtain ⟨h1, h2⟩ := ih _ _ _ _ _ h
        have hw : w = line.length := h2 rfl
        refine ⟨?_, by simp⟩
        intro l hmem hne1
        rcases List.mem_cons.1 hmem with rfl | hmem
        · exact hw.symm
        · exact h1 l hmem hne1
      | false =>
        simp only [Bool.false_eq_true, if_false] at h
        by_cases hlen : line.length = tempWidth
        · simp only [hlen, bne_self_eq_false, Bool.false_eq_true, if_false] at h
          obtain ⟨h1, h2⟩ := ih _ _ _ _ _ h
          have hw : w = tempWidth := h2 rfl
          refine ⟨?_, fun _ => hw⟩
          intro l hmem hne1
          rcases List.mem_cons.1 hmem with rfl | hmem
          · rw [hw, hlen]
          · exact h1 l hmem hne1
        · have hb : (line.length != tempWidth) = true := by simpa using hlen
          simp [hb] at h

/-- A readable source with two non-empty rows of unequal length makes `loadFromFile` return
false. -/
theorem Level.loadFromFile_ragged_fails (L : Level) (content : List Char)
    (h : ∃ r1 ∈ getLines content, ∃ r2 ∈ getLines content,
      r1 ≠ [] ∧ r2 ≠ [] ∧ r1.length ≠ r2.length) :
    (L.loadFromFile (some content)).1 = false := by
  obtain ⟨r1, hr1, r2, hr2, hne1, hne2, hlen⟩ := h
  rcases hread : Level.readLines (getLines content) [] 0 true with ⟨ok, grid, w⟩
  cases ok with
  | false => simp [Level.loadFromFile, hread]
  | true =>
    have hall := (Level.readLines_true _ _ _ _ _ _ hread).1
    exact absurd ((hall r1 hr1 hne1).trans (hall r2 hr2 hne2).symm) hlen

/-- C2 (evaluation): a new `Level` loads the two-by-two source; loading the ragged source into
it then returns false, yet the level is not what it was: the grid holds only the row read
before the short one, while `width` and `height` still say 2. -/
theorem Level.loadFromFile_ragged_changes_grid :
    Level.new.loadFromFile (some squareSource) = (true, squareLevel) ∧
      getLines raggedSource = [['a', 'b'], ['c']] ∧
      (squareLevel.loadFromFile (some raggedSource)).1 = false ∧
      (squareLevel.loadFromFile (some raggedSource)).2.grid = [['a', 'b']] ∧
      (squareLevel.loadFromFile (some raggedSource)).2.grid ≠ squareLevel.grid ∧
      (squareLevel.loadFromFile (some raggedSource)).2.width = 2 ∧
      (squareLevel.loadFromFile (some raggedSource)).2.height = 2 := by
  decide

/-! ## Session: time scale -/

/-- C3 (evaluation): with two enemy-free levels the constructed game reaches `Victory` after
two update steps, and `timeScale` is still 1 there. -/
theorem Game.victory_leaves_timeScale_one :
    (((Game.new true emptyRooms 0).update emptyRooms (1 / 60) 1 stayDraws).update
        emptyRooms (1 / 60) 2 stayDraws).currentState = GameState.Victory ∧
      (((Game.new true emptyRooms 0).update emptyRooms (1 / 60) 1 stayDraws).update
        emptyRooms (1 / 60) 2 stayDraws).timeScale = 1 := by
  decide


/-! ## Bullet -/

theorem Bullet.stepLoop_exit (level : Level) (n : Nat) :
    ∀ b : Bullet, b.moveTimer < ((n : ℚ) + 1) * BULLET_TIME_PER_STEP →
      ¬ ((Bullet.stepLoop level n b).moveTimer ≥ BULLET_TIME_PER_STEP ∧
          (Bullet.stepLoop level n b).active = true) := by
  induction n with
  | zero =>
    intro b hb
    simp only [Bullet.stepLoop]
    intro h
    simp only [Nat.cast_zero, zero_add, one_mul] at hb
    exact absurd h.1 (not_le.2 hb)
  | succ n ih =>
    intro b hb
    rw [Bullet.stepLoop]
    split
    · dsimp only
      split
      · simp [Bullet.destroy]
      · apply ih
        simp only [Nat.cast_add, Nat.cast_one] at hb
        dsimp only
        linarith
    · rename_i hguard
      simpa using hguard

theorem Bullet.moveTimer_lt_stepBound (b : Bullet) :
    b.moveTimer < ((b.stepBound : ℚ) + 1) * BULLET_TIME_PER_STEP := by
  have hpos : (0 : ℚ) < BULLET_TIME_PER_STEP := by norm_num [BULLET_TIME_PER_STEP]
  have h1 : b.moveTimer / BULLET_TIME_PER_STEP <
      ((⌊b.moveTimer / BULLET_TIME_PER_STEP⌋ : Int) : ℚ) + 1 := Int.lt_floor_add_one _
  have h2 : ((⌊b.moveTimer / BULLET_TIME_PER_STEP⌋ : Int) : ℚ) ≤ (b.stepBound : ℚ) := by
    have : (⌊b.moveTimer / BULLET_TIME_PER_STEP⌋ : Int) ≤ ((b.stepBound : Nat) : Int) :=
      Int.self_le_toNat _
    exact_mod_cast this
  have h3 : b.moveTimer / BULLET_TIME_PER_STEP < (b.stepBound : ℚ) + 1 := by linarith
  exact (div_lt_iff₀ hpos).1 h3

/-- The loop of `Bullet::update` has run to its exit: the iteration bound was not what
stopped it. -/
theorem Bullet.update_loop_exit (b : Bullet) (dt : ℚ) (level : Level) :
    ¬ ((b.update dt level).moveTimer ≥ BULLET_TIME_PER_STEP ∧
        (b.update dt level).active = true) := by
  unfold Bullet.update
  split
  · rename_i h
    intro h2
    simp [h2.2] at h
  · exact Bullet.stepLoop_exit level _ _ (Bullet.moveTimer_lt_stepBound _)

/-- Giving the loop of `Bullet::update` more iterations than `stepBound` changes nothing. -/
theorem Bullet.stepLoop_stable (level : Level) (n : Nat) :
    ∀ b : Bullet, b.moveTimer < ((n : ℚ) + 1) * BULLET_TIME_PER_STEP →
      ∀ m, Bullet.stepLoop level (n + m) b = Bullet.stepLoop level n b := by
  induction n with
  | zero =>
    intro b hb m
    simp only [Nat.cast_zero, zero_add, one_mul] at hb
    cases m with
    | zero => rfl
    | succ m =>
      have : decide (b.moveTimer ≥ BULLET_TIME_PER_STEP) = false := by
        simpa using hb
      simp [Bullet.stepLoop, this]
  | succ n ih =>
    intro b hb m
    have : n + 1 + m = (n + m) + 1 := by omega
    rw [this, Bullet.stepLoop, Bullet.stepLoop]
    split
    · dsimp only
      split
      · rfl
      · apply ih
        simp only [Nat.cast_add, Nat.cast_one] at hb
        dsimp only
        linarith
    · rfl

theorem Bullet.stepLoop_spec (level : Level) (n : Nat) :
    ∀ b : Bullet, level.isValid b.position.x b.position.y = true →
      level.isWall b.position.x b.position.y = false →
      (Bullet.stepLoop level n b).velocity = b.velocity ∧
      (((Bullet.stepLoop level n b).active = false ∧ b.active = true) →
        (level.isValid
            ((Bullet.stepLoop level n b).position.x + b.velocity.x)
            ((Bullet.stepLoop level n b).position.y + b.velocity.y) = false ∨
          level.isWall
            ((Bullet.stepLoop level n b).position.x + b.velocity.x)
            ((Bullet.stepLoop level n b).position.y + b.velocity.y) = true)) ∧
      ∃ k : Nat, k ≤ n ∧
        (Bullet.stepLoop level n b).position =
          { x := b.position.x + k * b.velocity.x, y := b.position.y + k * b.velocity.y } ∧
        ∀ i : Nat, i ≤ k →
          level.isValid (b.position.x + i * b.velocity.x) (b.position.y + i * b.velocity.y)
              = true ∧
            level.isWall (b.position.x + i * b.velocity.x) (b.position.y + i * b.velocity.y)
              = false := by
  induction n with
  | zero =>
    intro b hv hw
    refine ⟨rfl, ?_, 0, le_refl _, ?_, ?_⟩
    · simp only [Bullet.stepLoop]
      rintro ⟨h1, h2⟩
      rw [h1] at h2
      exact absurd h2 (by decide)
    · simp [Bullet.stepLoop]
    · intro i hi
      have : i = 0 := by omega
      subst this
      simpa using ⟨hv, hw⟩
  | succ n ih =>
    intro b hv hw
    rw [Bullet.stepLoop]
    split
    · dsimp only
      split
      · rename_i hblocked
        refine ⟨rfl, ?_, 0, Nat.zero_le _, ?_, ?_⟩
        · intro _
          simp only [Bullet.destroy]
          simpa using hblocked
        · simp [Bullet.destroy]
        · intro i hi
          have : i = 0 := by omega
          subst this
          simpa using ⟨hv, hw⟩
      · rename_i hguard hfree
        simp only [Bool.or_eq_true, Bool.not_eq_true', not_or, Bool.not_eq_false,
          Bool.not_eq_true] at hfree
        obtain ⟨hv1, hw1⟩ := hfree
        obtain ⟨hvel, hdest, k, hk, hpos, hall⟩ :=
          ih { b with moveTimer := b.moveTimer - BULLET_TIME_PER_STEP,
                      position := { x := b.position.x + b.velocity.x,
                                    y := b.position.y + b.velocity.y } } hv1 hw1
        dsimp only at hvel hdest hpos hall
        refine ⟨hvel, ?_, k + 1, by omega, ?_, ?_⟩
        · rintro ⟨h1, h2⟩
          exact hdest ⟨h1, h2⟩
        · rw [hpos]
          congr 1 <;> push_cast <;> ring
        · intro i hi
          cases i with
          | zero => simpa using ⟨hv, hw⟩
          | succ j =>
            have hj := hall j (by omega)
            have e1 : b.position.x + ((j + 1 : Nat) : Int) * b.velocity.x =
                b.position.x + b.velocity.x + (j : Int) * b.velocity.x := by
              push_cast; ring
            have e2 : b.position.y + ((j + 1 : Nat) : Int) * b.velocity.y =
                b.position.y + b.velocity.y + (j : Int) * b.velocity.y := by
              push_cast; ring
            rw [e1, e2]
            exact hj
    · rename_i hguard
      refine ⟨rfl, ?_, 0, Nat.zero_le _, ?_, ?_⟩
      · rintro ⟨h1, h2⟩
        rw [h1] at h2
        exact absurd h2 (by decide)
      · simp
      · intro i hi
        have : i = 0 := by omega
        subst this
        simpa using ⟨hv, hw⟩

/-- C4: an active bullet on an in-bounds non-wall cell is, after `Bullet::update`, again on an
in-bounds non-wall cell; if the update destroyed it, the next cell along its velocity is out of
bounds or a wall. It has advanced `k` whole cells over in-bounds non-wall cells only, and the
loop has run to its exit. -/
theorem Bullet.update_keeps_free_cell (level : Level) (dt : ℚ) (b : Bullet)
    (hact : b.active = true)
    (hvalid : level.isValid b.position.x b.position.y = true)
    (hfree : level.isWall b.position.x b.position.y = false) :
    level.isValid (b.update dt level).position.x (b.update dt level).position.y = true ∧
      level.isWall (b.update dt level).position.x (b.update dt level).position.y = false ∧
      ((b.update dt level).active = false →
        (level.isValid
            ((b.update dt level).position.x + (b.update dt level).velocity.x)
            ((b.update dt level).position.y + (b.update dt level).velocity.y) = false ∨
          level.isWall
            ((b.update dt level).position.x + (b.update dt level).velocity.x)
            ((b.update dt level).position.y + (b.update dt level).velocity.y) = true)) ∧
      (∃ k : Nat,
        (b.update dt level).position =
          { x := b.position.x + k * b.velocity.x, y := b.position.y + k * b.velocity.y } ∧
        ∀ i : Nat, i ≤ k →
          level.isValid (b.position.x + i * b.velocity.x) (b.position.y + i * b.velocity.y)
              = true ∧
            level.isWall (b.position.x + i * b.velocity.x) (b.position.y + i * b.velocity.y)
              = false) ∧
      ¬ ((b.update dt level).moveTimer ≥ BULLET_TIME_PER_STEP ∧
          (b.update dt level).active = true) := by
  have hexit := Bullet.update_loop_exit b dt level
  have hupd : b.update dt level =
      Bullet.stepLoop level
        (Bullet.stepBound { b with moveTimer := b.moveTimer + dt })
        { b with moveTimer := b.moveTimer + dt } := by
    simp [Bullet.update, hact]
  obtain ⟨hvel, hdest, k, _, hpos, hall⟩ :=
    Bullet.stepLoop_spec level (Bullet.stepBound { b with moveTimer := b.moveTimer + dt })
      { b with moveTimer := b.moveTimer + dt } hvalid hfree
  rw [← hupd] at hvel hdest hpos
  dsimp only at hvel hdest hpos hall
  have hk := hall k (le_refl k)
  refine ⟨?_, ?_, ?_, ⟨k, hpos, hall⟩, hexit⟩
  · rw [hpos]; exact hk.1
  · rw [hpos]; exact hk.2
  · intro hdead
    rw [hvel]
    exact hdest ⟨hdead, hact⟩

theorem Bullet.update_keeps_free_cell_witness :
    shaftLevel.isValid
          ((shaftBullet.update (1 / 10) shaftLevel).position.x +
            (shaftBullet.update (1 / 10) shaftLevel).velocity.x)
          ((shaftBullet.update (1 / 10) shaftLevel).position.y +
            (shaftBullet.update (1 / 10) shaftLevel).velocity.y) = false ∨
      shaftLevel.isWall
          ((shaftBullet.update (1 / 10) shaftLevel).position.x +
            (shaftBullet.update (1 / 10) shaftLevel).velocity.x)
          ((shaftBullet.update (1 / 10) shaftLevel).position.y +
            (shaftBullet.update (1 / 10) shaftLevel).velocity.y) = true :=
  (Bullet.update_keeps_free_cell shaftLevel (1 / 10) shaftBullet (by decide) (by decide)
    (by decide)).2.2.1 (by with_unfolding_all decide)

/-! ## Collision resolution -/

theorem hitFirstEnemy_first (bPos : Vector2i) (e : Enemy) (epost : List Enemy)
    (hea : e.active = true) (hepos : e.position = bPos) :
    ∀ epre : List Enemy,
      (∀ e1 ∈ epre, ¬ (e1.active = true ∧ e1.position = bPos)) →
      hitFirstEnemy bPos (epre ++ e :: epost) = some (epre ++ e.destroy :: epost) := by
  intro epre
  induction epre with
  | nil =>
    intro _
    simp [hitFirstEnemy, hea, hepos]
  | cons a rest ih =>
    intro h
    have ha : ¬ (a.active = true ∧ a.position = bPos) := h a (List.mem_cons_self _ _)
    have hrest := ih (fun e1 he1 => h e1 (List.mem_cons_of_mem _ he1))
    have hcond : (a.active && a.position == bPos) = false := by
      rw [← Bool.not_eq_true]
      simpa using ha
    simp [hitFirstEnemy, hcond, hrest]

theorem bulletsVsEnemies_inactive (enemies : List Enemy) (player : Option Player) :
    ∀ bs : List Bullet, (∀ b ∈ bs, b.active = false) →
      bulletsVsEnemies bs enemies player = (bs, enemies, player) := by
  intro bs
  induction bs with
  | nil => intro _; rfl
  | cons b rest ih =>
    intro h
    have hb : b.active = false := h b (List.mem_cons_self _ _)
    have hrest := ih (fun b1 hb1 => h b1 (List.mem_cons_of_mem _ hb1))
    simp [bulletsVsEnemies, hb, hrest]

theorem bulletsVsEnemies_single (b : Bullet) (post : List Bullet) (enemies enemies1 : List Enemy)
    (player : Option Player) (hba : b.active = true)
    (hpost : ∀ b1 ∈ post, b1.active = false)
    (hhit : hitFirstEnemy b.position enemies = some enemies1) :
    ∀ pre : List Bullet, (∀ b1 ∈ pre, b1.active = false) →
      bulletsVsEnemies (pre ++ b :: post) enemies player =
        (pre ++ b.destroy :: post, enemies1, player.map (fun p => p.addScore 50)) := by
  intro pre
  induction pre with
  | nil =>
    intro _
    simp [bulletsVsEnemies, hba, hhit, bulletsVsEnemies_inactive _ _ post hpost]
  | cons a rest ih =>
    intro h
    have ha : a.active = false := h a (List.mem_cons_self _ _)
    have hrest := ih (fun b1 hb1 => h b1 (List.mem_cons_of_mem _ hb1))
    simp [bulletsVsEnemies, ha, hrest]

/-- C5: in phase Playing, with an active player on no active enemy's cell and exactly one
active projectile whose cell holds an active enemy, `checkCollisions` deactivates that
projectile and the first active enemy on its cell, changes nothing else in the two collections
and adds exactly 50 to the score. -/
theorem Game.checkCollisions_single_hit (g : Game) (p : Player) (pre post : List Bullet)
    (b : Bullet) (epre epost : List Enemy) (e : Enemy)
    (hstate : g.currentState = GameState.Playing)
    (hp : g.player_ptr = some p) (hpa : p.active = true)
    (hclear : ∀ e1 ∈ g.enemies, e1.active = true → e1.position ≠ p.position)
    (hb : g.bullets = pre ++ b :: post) (hba : b.active = true)
    (hpre : ∀ b1 ∈ pre, b1.active = false) (hpost : ∀ b1 ∈ post, b1.active = false)
    (he : g.enemies = epre ++ e :: epost) (hea : e.active = true)
    (hepos : e.position = b.position)
    (hfirst : ∀ e1 ∈ epre, ¬ (e1.active = true ∧ e1.position = b.position)) :
    g.checkCollisions =
        { g with bullets := pre ++ b.destroy :: post,
                 enemies := epre ++ e.destroy :: epost,
                 player_ptr := some (p.addScore 50) } ∧
      b.destroy.active = false ∧ e.destroy.active = false ∧
      (p.addScore 50).score = p.score + 50 ∧
      g.checkCollisions.currentState = GameState.Playing := by
  have hany : (g.enemies.any (fun e1 => e1.active && e1.position == p.position)) = false := by
    rw [← Bool.not_eq_true]
    intro hcon
    obtain ⟨e1, hmem, hc⟩ := List.any_eq_true.1 hcon
    simp only [Bool.and_eq_true, beq_iff_eq] at hc
    exact hclear e1 hmem hc.1 hc.2
  have hhit := hitFirstEnemy_first b.position e epost hea hepos epre hfirst
  have hbv := bulletsVsEnemies_single b post (epre ++ e :: epost) _ (some p) hba hpost hhit
    pre hpre
  have hmain : g.checkCollisions =
      { g with bullets := pre ++ b.destroy :: post,
               enemies := epre ++ e.destroy :: epost,
               player_ptr := some (p.addScore 50) } := by
    rw [he] at hany
    cases g
    simp only at hstate hp hb he
    subst hstate hp hb he
    simp [Game.checkCollisions, Game.playerActive, hpa, hany, hbv]
  refine ⟨hmain, rfl, rfl, rfl, ?_⟩
  rw [hmain]
  exact hstate

theorem Game.checkCollisions_single_hit_witness :
    duelGame.checkCollisions =
      { duelGame with
          bullets := [(Bullet.new 1 1 0 (-1)).destroy, (Bullet.new 1 0 0 (-1)).destroy],
          enemies := [Enemy.new 1 2 0, (Enemy.new 1 0 0).destroy, Enemy.new 1 0 0],
          player_ptr := some ((Player.new 1 1 0).addScore 50) } :=
  (Game.checkCollisions_single_hit duelGame (Player.new 1 1 0)
    [(Bullet.new 1 1 0 (-1)).destroy] [] (Bullet.new 1 0 0 (-1))
    [Enemy.new 1 2 0] [Enemy.new 1 0 0] (Enemy.new 1 0 0)
    rfl rfl rfl (by decide) rfl rfl (by decide) (by decide) rfl rfl rfl (by decide)).1

/-! ## Player: collecting an item -/

theorem grid_getD_set (grid : List (List Char)) (i j i1 j1 : Nat) (c d : Char) :
    ((grid.set i ((grid.getD i []).set j c)).getD i1 []).getD j1 d =
      if i = i1 ∧ j = j1 ∧ i < grid.length ∧ j < (grid.getD i []).length then c
      else (grid.getD i1 []).getD j1 d := by
  simp only [List.getD_eq_getElem?_getD, List.getElem?_set]
  by_cases hi : i = i1
  · subst hi
    by_cases hlen : i < grid.length
    · have hrow : grid[i]? = some grid[i] := List.getElem?_eq_getElem hlen
      simp only [hlen, hrow, if_true, Option.getD_some, List.getElem?_set, true_and]
      split_ifs <;> simp_all <;>
        first
          | omega
          | (rename_i h1 h2; rw [List.getElem?_eq_none h2]; rfl)
    · have hrow : grid[i]? = none := List.getElem?_eq_none (by omega)
      simp [hlen, hrow]
  · simp [hi]

theorem Level.gridAt_setCell (L : Level) (x y x1 y1 : Int) (c : Char)
    (hv : L.isValid x y = true) :
    (L.setCell x y c).gridAt x1 y1 =
      if y.toNat = y1.toNat ∧ x.toNat = x1.toNat ∧ y.toNat < L.grid.length ∧
          x.toNat < (L.grid.getD y.toNat []).length then c
      else L.gridAt x1 y1 := by
  simp only [Level.setCell, hv, if_true, Level.gridAt]
  exact grid_getD_set _ _ _ _ _ _ _

theorem Level.isValid_setCell (L : Level) (x y x1 y1 : Int) (c : Char) :
    (L.setCell x y c).isValid x1 y1 = L.isValid x1 y1 := by
  unfold Level.setCell
  split <;> rfl

theorem Level.gridAt_stored (L : Level) (x y : Int) (h : L.gridAt x y ≠ Char.ofNat 0) :
    y.toNat < L.grid.length ∧ x.toNat < (L.grid.getD y.toNat []).length := by
  unfold Level.gridAt at h
  by_cases hy : y.toNat < L.grid.length
  · refine ⟨hy, ?_⟩
    by_contra hx
    apply h
    simp only [List.getD_eq_getElem?_getD] at hx ⊢
    rw [List.getElem?_eq_none (by omega)]
    rfl
  · exfalso
    apply h
    simp only [List.getD_eq_getElem?_getD]
    rw [List.getElem?_eq_none (l := L.grid) (by omega)]
    rfl

/-- C6: a movement key pressed by an active player whose destination cell is an item tile
moves the player there, adds exactly 10 to the score and turns that cell, and no other, into a
path cell. -/
theorem Player.handleInput_collects_item (level : Level) (p : Player) (bullets : List Bullet)
    (now : ℚ) (key : Key)
    (hkey : key = Key.W ∨ key = Key.S ∨ key = Key.A ∨ key = Key.D)
    (hact : p.active = true)
    (hitem : level.isItem (p.position.x + key.delta.1) (p.position.y + key.delta.2) = true) :
    (p.handleInput key level bullets now).player.position =
        { x := p.position.x + key.delta.1, y := p.position.y + key.delta.2 } ∧
      (p.handleInput key level bullets now).player.score = p.score + 10 ∧
      (p.handleInput key level bullets now).level.isPath
        (p.position.x + key.delta.1) (p.position.y + key.delta.2) = true ∧
      (p.handleInput key level bullets now).level.isItem
        (p.position.x + key.delta.1) (p.position.y + key.delta.2) = false ∧
      (∀ x y : Int, ¬ (x = p.position.x + key.delta.1 ∧ y = p.position.y + key.delta.2) →
        (p.handleInput key level bullets now).level.getCell x y = level.getCell x y) ∧
      (p.handleInput key level bullets now).level.width = level.width ∧
      (p.handleInput key level bullets now).level.height = level.height ∧
      (p.handleInput key level bullets now).player.active = true ∧
      (p.handleInput key level bullets now).gameOver = none ∧
      (p.handleInput key level bullets now).bullets = bullets := by
  have hv : level.isValid (p.position.x + key.delta.1) (p.position.y + key.delta.2) = true := by
    by_contra hn
    simp [Level.isItem, hn] at hitem
  have hcell : level.gridAt (p.position.x + key.delta.1) (p.position.y + key.delta.2)
      = ITEM_CHAR := by
    simpa [Level.isItem, hv] using hitem
  have hstored := Level.gridAt_stored level _ _ (by rw [hcell]; decide)
  have hwall : level.isWall (p.position.x + key.delta.1) (p.position.y + key.delta.2)
      = false := by
    simp [Level.isWall, hv, hcell, ITEM_CHAR, WALL_CHAR]
  have hres : p.handleInput key level bullets now =
      { player := { p with facingDirection := { x := key.delta.1, y := key.delta.2 },
                           position := { x := p.position.x + key.delta.1,
                                         y := p.position.y + key.delta.2 },
                           score := p.score + 10 },
        level := level.setCell (p.position.x + key.delta.1) (p.position.y + key.delta.2)
          PATH_CHAR,
        bullets := bullets, gameOver := none } := by
    rcases hkey with rfl | rfl | rfl | rfl <;>
      simp [Player.handleInput, Player.tryMove, Player.addScore, hact, Key.delta] at hv hwall hitem ⊢ <;>
      simp [hv, hwall, hitem]
  have hnew := Level.gridAt_setCell level (p.position.x + key.delta.1)
    (p.position.y + key.delta.2) (p.position.x + key.delta.1) (p.position.y + key.delta.2)
    PATH_CHAR hv
  simp only [hstored.1, hstored.2, and_self, if_true] at hnew
  rw [hres]
  refine ⟨rfl, rfl, ?_, ?_, ?_, ?_, ?_, hact, rfl, rfl⟩
  · simp [Level.isPath, Level.isValid_setCell, hv, hnew]
  · simp only [Level.isItem, Level.isValid_setCell, hv, hnew]
    decide
  · intro x y hne
    simp only [Level.getCell, Level.isValid_setCell]
    by_cases hvxy : level.isValid x y = true
    · have hb := (Level.isValid_iff level x y).1 hvxy
      have hd := (Level.isValid_iff level _ _).1 hv
      rw [Level.gridAt_setCell level _ _ x y PATH_CHAR hv]
      have : ¬ ((p.position.y + key.delta.2).toNat = y.toNat ∧
          (p.position.x + key.delta.1).toNat = x.toNat ∧
          (p.position.y + key.delta.2).toNat < level.grid.length ∧
          (p.position.x + key.delta.1).toNat <
            (level.grid.getD (p.position.y + key.delta.2).toNat []).length) := by
        rintro ⟨h1, h2, _, _⟩
        apply hne
        constructor <;> omega
      rw [if_neg this]
    · simp [hvxy]
  · simp only [Level.setCell]
    split <;> rfl
  · simp only [Level.setCell]
    split <;> rfl

theorem Player.handleInput_collects_item_witness :
    ((Player.new 1 1 0).handleInput Key.D itemLevel [] 0).player.score = 0 + 10 :=
  (Player.handleInput_collects_item itemLevel (Player.new 1 1 0) [] 0 Key.D
    (by decide) (by decide) (by decide)).2.1

/-! ## Update step: victory and level advance -/

theorem bulletsVsEnemies_player_active (bs : List Bullet) :
    ∀ (es : List Enemy) (p : Player),
      ∃ q, (bulletsVsEnemies bs es (some p)).2.2 = some q ∧ q.active = p.active := by
  induction bs with
  | nil => intro es p; exact ⟨p, rfl, rfl⟩
  | cons b rest ih =>
    intro es p
    rw [bulletsVsEnemies]
    split
    · exact ih es p
    · split
      · rename_i es1 _
        obtain ⟨q, hq, hqa⟩ := ih es1 (p.addScore 50)
        exact ⟨q, hq, hqa⟩
      · exact ih es p

theorem Game.checkCollisions_of_playing (g : Game) (p : Player)
    (hstate : g.currentState = GameState.Playing) (hp : g.player_ptr = some p)
    (hpa : p.active = true)
    (hcoll : g.checkCollisions.currentState = GameState.Playing) :
    g.checkCollisions =
      { g with bullets := (bulletsVsEnemies g.bullets g.enemies (some p)).1,
               enemies := (bulletsVsEnemies g.bullets g.enemies (some p)).2.1,
               player_ptr := (bulletsVsEnemies g.bullets g.enemies (some p)).2.2 } := by
  by_cases hany : g.enemies.any (fun e => e.active && e.position == p.position) = true
  · exfalso
    simp [Game.checkCollisions, Game.playerActive, hstate, hp, hpa, hany, Game.setGameOver,
      Game.destroyPlayer] at hcoll
  · simp [Game.checkCollisions, Game.playerActive, hstate, hp, hpa, hany]

theorem Game.checkCollisions_caught (g : Game) (p : Player)
    (hstate : g.currentState = GameState.Playing) (hp : g.player_ptr = some p)
    (hpa : p.active = true)
    (hcoll : g.checkCollisions.currentState ≠ GameState.Playing) :
    g.checkCollisions.cleanupEntities.enemies ≠ [] := by
  by_cases hany : g.enemies.any (fun e => e.active && e.position == p.position) = true
  · obtain ⟨e, hmem, hc⟩ := List.any_eq_true.1 hany
    simp only [Bool.and_eq_true] at hc
    have hen : g.checkCollisions.enemies = g.enemies := by
      simp [Game.checkCollisions, Game.playerActive, hstate, hp, hpa, hany, Game.setGameOver,
        Game.destroyPlayer]
    intro hnil
    have hmem2 : e ∈ g.checkCollisions.cleanupEntities.enemies := by
      simp only [Game.cleanupEntities, hen]
      exact List.mem_filter.2 ⟨hmem, hc.1⟩
    rw [hnil] at hmem2
    exact absurd hmem2 (List.not_mem_nil _)
  · exfalso
    apply hcoll
    simp [Game.checkCollisions, Game.playerActive, hstate, hp, hpa, hany]

/-- C7: an update step from phase Playing with an active player, whose collision pass leaves
the phase Playing and after whose cleanup no enemy remains, on the last level
(`currentLevelIndex = totalLevels`), ends in phase Victory with the player inactive and the
message built from the score the player had after the collision pass. -/
theorem Game.update_victory (g : Game) (fs : Files) (dt now : ℚ) (rand : Nat → Nat)
    (hstate : g.currentState = GameState.Playing)
    (hpa : g.playerActive = true)
    (hcoll : (g.updateEntities dt now rand).checkCollisions.currentState = GameState.Playing)
    (hnone : (g.updateEntities dt now rand).checkCollisions.cleanupEntities.enemies = [])
    (hlast : g.currentLevelIndex = g.totalLevels) :
    (g.update fs dt now rand).currentState = GameState.Victory ∧
      (g.update fs dt now rand).playerActive = false ∧
      ∃ q : Player,
        (g.updateEntities dt now rand).checkCollisions.player_ptr = some q ∧
        (g.update fs dt now rand).player_ptr = some q.destroy ∧
        (g.update fs dt now rand).messageText =
          "YOU WIN!\nScore: " ++ toString q.score ++ "\nPress R" := by
  obtain ⟨p, hp, hpact⟩ : ∃ p, g.player_ptr = some p ∧ p.active = true := by
    cases hpp : g.player_ptr with
    | none => simp [Game.playerActive, hpp] at hpa
    | some p => exact ⟨p, rfl, by simpa [Game.playerActive, hpp] using hpa⟩
  have hmid := Game.checkCollisions_of_playing (g.updateEntities dt now rand) p hstate hp hpact
    hcoll
  obtain ⟨q, hq, hqa⟩ := bulletsVsEnemies_player_active (g.updateEntities dt now rand).bullets
    (g.updateEntities dt now rand).enemies p
  have hqp : (g.updateEntities dt now rand).checkCollisions.player_ptr = some q := by
    rw [hmid]; exact hq
  have hidx : (g.updateEntities dt now rand).checkCollisions.currentLevelIndex =
      (g.updateEntities dt now rand).checkCollisions.totalLevels := by
    rw [hmid]; exact hlast
  have hupd : g.update fs dt now rand =
      (g.updateEntities dt now rand).checkCollisions.cleanupEntities.setVictory := by
    have hnone2 := hnone
    simp only [Game.cleanupEntities] at hnone2
    simp [Game.update, hstate, hpa, hcoll, Game.checkProgress, Game.cleanupEntities, hnone2,
      hidx, Game.setVictory, Game.destroyPlayer, hqp]
    split <;> simp
  rw [hupd]
  have hqact : q.active = true := hqa.trans hpact
  refine ⟨?_, ?_, q, hqp, ?_, ?_⟩
  · simp [Game.setVictory, Game.destroyPlayer, Game.cleanupEntities, hqp, hqact]
  · simp [Game.setVictory, Game.destroyPlayer, Game.cleanupEntities, hqp, hqact,
      Game.playerActive, Player.destroy]
  · simp [Game.setVictory, Game.destroyPlayer, Game.cleanupEntities, hqp, hqact]
  · simp [Game.setVictory, Game.destroyPlayer, Game.cleanupEntities, hqp, hqact,
      Game.scoreStr]

theorem Game.update_victory_witness :
    (finalGame.update twoLevels (1 / 60) 0 stayDraws).currentState = GameState.Victory :=
  (Game.update_victory finalGame twoLevels (1 / 60) 0 stayDraws rfl rfl
    (by with_unfolding_all decide) (by with_unfolding_all decide) rfl).1

theorem Level.mem_cells (L : Level) (x y : Nat) :
    (x, y) ∈ L.cells ↔ x < L.width ∧ y < L.height := by
  simp only [Level.cells, List.mem_flatMap, List.mem_range, List.mem_map, Prod.mk.injEq]
  constructor
  · rintro ⟨b, hb, a, ha, rfl, rfl⟩
    exact ⟨ha, hb⟩
  · rintro ⟨hx, hy⟩
    exact ⟨y, hy, x, hx, rfl, rfl⟩

theorem Level.cells_pairwise (L : Level) :
    L.cells.Pairwise (fun a b => a.2 < b.2 ∨ (a.2 = b.2 ∧ a.1 < b.1)) := by
  unfold Level.cells
  rw [List.pairwise_flatMap]
  constructor
  · intro y _
    rw [List.pairwise_map]
    exact (List.pairwise_lt_range L.width).imp (fun h => Or.inr ⟨rfl, h⟩)
  · refine (List.pairwise_lt_range L.height).imp ?_
    intro y1 y2 hlt a ha b hb
    obtain ⟨x1, _, rfl⟩ := List.mem_map.1 ha
    obtain ⟨x2, _, rfl⟩ := List.mem_map.1 hb
    exact Or.inl hlt

theorem Level.getCell_beq_enemy (L : Level) (x y : Int) :
    (L.getCell x y == ENEMY_CHAR) = L.isEnemySpawn x y := by
  unfold Level.getCell Level.isEnemySpawn
  split
  · decide
  · rfl

theorem Game.spawnEnemies_active (level : Level) (now : ℚ) :
    ∀ e ∈ Game.spawnEnemies level now, e.active = true := by
  intro e he
  obtain ⟨c, _, rfl⟩ := List.mem_map.1 he
  rfl

theorem Game.spawnEnemies_mem (level : Level) (now : ℚ) (x y : Int) :
    (∃ e ∈ Game.spawnEnemies level now, e.position = { x := x, y := y }) ↔
      level.isEnemySpawn x y = true := by
  constructor
  · rintro ⟨e, he, hpos⟩
    obtain ⟨c, hc, rfl⟩ := List.mem_map.1 he
    obtain ⟨_, hcell⟩ := List.mem_filter.1 hc
    rw [Level.getCell_beq_enemy] at hcell
    simp only [Enemy.new, Vector2i.mk.injEq] at hpos
    rw [← hpos.1, ← hpos.2]
    exact hcell
  · intro h
    have hv : level.isValid x y = true := by
      by_contra hn
      simp [Level.isEnemySpawn, hn] at h
    obtain ⟨hx0, hx1, hy0, hy1⟩ := (Level.isValid_iff level x y).1 hv
    have ex : Int.ofNat x.toNat = x := Int.toNat_of_nonneg hx0
    have ey : Int.ofNat y.toNat = y := Int.toNat_of_nonneg hy0
    refine ⟨Enemy.new (Int.ofNat x.toNat) (Int.ofNat y.toNat) now, ?_, ?_⟩
    · apply List.mem_map.2
      refine ⟨(x.toNat, y.toNat), List.mem_filter.2 ⟨?_, ?_⟩, rfl⟩
      · rw [Level.mem_cells]
        constructor <;> omega
      · rw [Level.getCell_beq_enemy]
        dsimp only
        rw [ex, ey]
        exact h
    · simp only [Enemy.new, ex, ey]

theorem Game.spawnEnemies_order (level : Level) (now : ℚ) :
    ((Game.spawnEnemies level now).map (fun e => e.position)).Pairwise
      (fun a b => a.y < b.y ∨ (a.y = b.y ∧ a.x < b.x)) := by
  unfold Game.spawnEnemies
  rw [List.pairwise_map, List.pairwise_map]
  refine ((Level.cells_pairwise level).filter _).imp ?_
  intro a b h
  simp only [Enemy.new, Int.ofNat_eq_coe]
  omega

/-- C8: an update step from phase Playing (active player) after whose cleanup no enemy remains,
on a level that is not the last and whose successor's source loads, ends with the level index
one higher, in phase Playing, with no projectile, on the newly loaded map, and with exactly one
active enemy on each enemy-marker cell of that map, in row-major order, and no other enemy. -/
theorem Game.update_next_level (g : Game) (fs : Files) (dt now : ℚ) (rand : Nat → Nat)
    (hstate : g.currentState = GameState.Playing)
    (hpa : g.playerActive = true)
    (hnone : (g.updateEntities dt now rand).checkCollisions.cleanupEntities.enemies = [])
    (hidx : g.currentLevelIndex < g.totalLevels)
    (hload : (g.currentLevelData.loadFromFile
      (fs (levelFileName (g.currentLevelIndex + 1)))).1 = true) :
    (g.update fs dt now rand).currentLevelIndex = g.currentLevelIndex + 1 ∧
      (g.update fs dt now rand).currentState = GameState.Playing ∧
      (g.update fs dt now rand).bullets = [] ∧
      (g.update fs dt now rand).currentLevelData =
        (g.currentLevelData.loadFromFile (fs (levelFileName (g.currentLevelIndex + 1)))).2 ∧
      (∀ e ∈ (g.update fs dt now rand).enemies, e.active = true) ∧
      (∀ x y : Int,
        (∃ e ∈ (g.update fs dt now rand).enemies, e.position = { x := x, y := y }) ↔
          (g.update fs dt now rand).currentLevelData.isEnemySpawn x y = true) ∧
      ((g.update fs dt now rand).enemies.map (fun e => e.position)).Nodup ∧
      ((g.update fs dt now rand).enemies.map (fun e => e.position)).Pairwise
        (fun a b => a.y < b.y ∨ (a.y = b.y ∧ a.x < b.x)) := by
  obtain ⟨p, hp, hpact⟩ : ∃ p, g.player_ptr = some p ∧ p.active = true := by
    cases hpp : g.player_ptr with
    | none => simp [Game.playerActive, hpp] at hpa
    | some p => exact ⟨p, rfl, by simpa [Game.playerActive, hpp] using hpa⟩
  have hcoll : (g.updateEntities dt now rand).checkCollisions.currentState
      = GameState.Playing := by
    by_contra hne
    exact Game.checkCollisions_caught (g.updateEntities dt now rand) p hstate hp hpact hne hnone
  have hmid := Game.checkCollisions_of_playing (g.updateEntities dt now rand) p hstate hp hpact
    hcoll
  obtain ⟨q, hq, hqa⟩ := bulletsVsEnemies_player_active (g.updateEntities dt now rand).bullets
    (g.updateEntities dt now rand).enemies p
  have hqp : (g.updateEntities dt now rand).checkCollisions.player_ptr = some q := by
    rw [hmid]; exact hq
  have hi : (g.updateEntities dt now rand).checkCollisions.currentLevelIndex =
      g.currentLevelIndex := by
    rw [hmid]; rfl
  have ht : (g.updateEntities dt now rand).checkCollisions.totalLevels = g.totalLevels := by
    rw [hmid]; rfl
  have hl : (g.updateEntities dt now rand).checkCollisions.currentLevelData =
      g.currentLevelData := by
    rw [hmid]; rfl
  have hnone2 := hnone
  simp only [Game.cleanupEntities] at hnone2
  have hupd : g.update fs dt now rand =
      Game.updateUI
        { (Game.setupLevel
            { (g.updateEntities dt now rand).checkCollisions.cleanupEntities with
                currentLevelIndex := g.currentLevelIndex + 1,
                currentLevelData := (g.currentLevelData.loadFromFile
                  (fs (levelFileName (g.currentLevelIndex + 1)))).2 } now) with
          currentState := GameState.Playing, timeScale := 1, messageText := "" } := by
    simp [Game.update, hstate, hpa, hcoll, Game.checkProgress, Game.cleanupEntities, hnone2,
      hi, ht, hl, hidx, Game.nextLevel, Game.loadLevel, Game.loadLevelBody, hload, hqp]
  have hen : (g.update fs dt now rand).enemies =
      Game.spawnEnemies (g.update fs dt now rand).currentLevelData now := by
    rw [hupd]
    simp [Game.updateUI, Game.setupLevel, Game.cleanupEntities, hqp]
  have hord := Game.spawnEnemies_order (g.update fs dt now rand).currentLevelData now
  refine ⟨?_, ?_, ?_, ?_, ?_, ?_, ?_, ?_⟩
  · rw [hupd]
    simp [Game.updateUI, Game.setupLevel, Game.cleanupEntities, hqp]
  · rw [hupd]
    simp [Game.updateUI]
  · rw [hupd]
    simp [Game.updateUI, Game.setupLevel, Game.cleanupEntities, hqp]
  · rw [hupd]
    simp [Game.updateUI, Game.setupLevel, Game.cleanupEntities, hqp]
  · rw [hen]
    exact Game.spawnEnemies_active _ _
  · intro x y
    rw [hen]
    exact Game.spawnEnemies_mem _ _ _ _
  · rw [hen]
    refine hord.imp ?_
    intro a b h hab
    rw [hab] at h
    omega
  · rw [hen]
    exact hord

theorem Game.update_next_level_witness :
    (firstGame.update twoLevels (1 / 60) 0 stayDraws).currentLevelIndex =
      firstGame.currentLevelIndex + 1 :=
  (Game.update_next_level firstGame twoLevels (1 / 60) 0 stayDraws rfl rfl
    (by with_unfolding_all decide) (by decide) (by decide)).1

/-! ## Restart -/

/-- C9 (as the code has it): a restart input in phase GameOver or Victory leaves
`currentLevelIndex` equal to 1; when a player exists and the first level's source loads, the
score is 0 and the phase Playing afterwards; when the source fails to load, the score is what
it was and the phase is GameOver. -/
theorem Game.restart_resets (g : Game) (fs : Files) (now : ℚ) (p : Player)
    (hphase : g.currentState = GameState.GameOver ∨ g.currentState = GameState.Victory)
    (hp : g.player_ptr = some p) :
    (g.processEvent fs now (Event.KeyPressed Key.R)).currentLevelIndex = 1 ∧
      ((g.currentLevelData.loadFromFile (fs (levelFileName 1))).1 = true →
        (g.processEvent fs now (Event.KeyPressed Key.R)).currentState = GameState.Playing ∧
        ∃ q, (g.processEvent fs now (Event.KeyPressed Key.R)).player_ptr = some q ∧
          q.score = 0) ∧
      ((g.currentLevelData.loadFromFile (fs (levelFileName 1))).1 = false →
        (g.processEvent fs now (Event.KeyPressed Key.R)).currentState = GameState.GameOver ∧
        ∃ q, (g.processEvent fs now (Event.KeyPressed Key.R)).player_ptr = some q ∧
          q.score = p.score) := by
  have hev : g.processEvent fs now (Event.KeyPressed Key.R) = g.resetGame fs now := by
    rcases hphase with h | h <;> simp [Game.processEvent, h]
  rw [hev]
  cases hl : (g.currentLevelData.loadFromFile (fs (levelFileName 1))).1 with
  | true =>
    simp [Game.resetGame, Game.loadLevel, Game.loadLevelBody, hl, hp, Game.setupLevel,
      Game.updateUI, Player.reset, Player.setPosition]
  | false =>
    simp only [Game.resetGame, Game.loadLevel, Game.loadLevelBody, hl, Game.setGameOver,
      Game.destroyPlayer, hp]
    by_cases hpa : p.active = true <;> simp [hpa, Player.destroy]

theorem Game.restart_resets_witness :
    (crashedGame.processEvent corridorFiles 2 (Event.KeyPressed Key.R)).currentLevelIndex = 1 :=
  (Game.restart_resets crashedGame corridorFiles 2
    { position := { x := 2, y := 1 }, active := false, score := 10,
      facingDirection := { x := 0, y := -1 }, shootTimer := 0 }
    (by decide) (by decide)).1

/-- C9 (as stated) fails: after the item was collected and the player walked into a wall, a
restart input while `level1.txt` cannot be opened leaves the score at 10. -/
theorem Game.restart_keeps_score_when_load_fails :
    crashedGame.currentState = GameState.GameOver ∧
      crashedGame.windowOpen = true ∧
      (crashedGame.processEvents noFiles 2 [Event.KeyPressed Key.R]).player_ptr.map
        (fun q => q.score) = some 10 := by
  decide

/-! ## The shooting scenario -/

/-- C10 (as stated) fails: in the level `###`, `#P#`, `#X#` the player starts at `(1,1)`
facing up and one enemy at `(1,2)`, the cell `(1,0)` is a wall, and a shoot input with the
cooldown elapsed adds no projectile. -/
theorem Game.border_shot_adds_no_bullet :
    (Game.new true borderFiles 0).currentLevelData =
        { grid := [['#', '#', '#'], ['#', 'P', '#'], ['#', 'X', '#']], width := 3, height := 3 } ∧
      (Game.new true borderFiles 0).player_ptr = some (Player.new 1 1 0) ∧
      (Game.new true borderFiles 0).enemies = [Enemy.new 1 2 0] ∧
      (Game.new true borderFiles 0).currentLevelData.isWall 1 0 = true ∧
      ((Game.new true borderFiles 0).processEvents borderFiles 1
        [Event.KeyPressed Key.Space]).bullets = [] := by
  with_unfolding_all decide

/-- C10 (as the code has it): in the border-walled scenario level the shot from `(1,1)` facing
up is blocked, only the cooldown restarts. With `(1,0)` a path cell instead, the shot adds one
projectile at `(1,0)` with velocity `(0,-1)`; it stays put while less than one step of time
has accumulated and is destroyed at `(1,0)` on its first movement step, `(1,-1)` being out of
bounds. -/
theorem Game.shot_scenario :
    ((Game.new true borderFiles 0).processEvents borderFiles 1
        [Event.KeyPressed Key.Space]).bullets = [] ∧
      ((Game.new true borderFiles 0).processEvents borderFiles 1
        [Event.KeyPressed Key.Space]).player_ptr =
          some { Player.new 1 1 0 with shootTimer := 1 } ∧
      (Game.new true shaftFiles 0).currentLevelData = shaftLevel ∧
      (Game.new true shaftFiles 0).player_ptr = some (Player.new 1 1 0) ∧
      (Game.new true shaftFiles 0).enemies = [Enemy.new 1 2 0] ∧
      ((Game.new true shaftFiles 0).processEvents shaftFiles 1
        [Event.KeyPressed Key.Space]).bullets = [Bullet.new 1 0 0 (-1)] ∧
      (Bullet.new 1 0 0 (-1)).update (1 / 60) shaftLevel =
        { Bullet.new 1 0 0 (-1) with moveTimer := 1 / 60 } ∧
      (Bullet.new 1 0 0 (-1)).update BULLET_TIME_PER_STEP shaftLevel =
        (Bullet.new 1 0 0 (-1)).destroy ∧
      shaftLevel.isValid 1 (-1) = false := by
  with_unfolding_all decide


/-! ## Player input in a session -/

/-- C11: in phase Playing with an active player, a movement key whose destination cell is a
wall ends the session: the player is inactive and faces the input direction, the phase is
GameOver with the reason "You walked into a wall!" and `timeScale` 0; position, score, map
and everything else are as before. -/
theorem Game.move_into_wall (g : Game) (fs : Files) (now : ℚ) (p : Player) (key : Key)
    (hstate : g.currentState = GameState.Playing)
    (hp : g.player_ptr = some p) (hact : p.active = true)
    (hkey : key = Key.W ∨ key = Key.S ∨ key = Key.A ∨ key = Key.D)
    (hwall : g.currentLevelData.isWall (p.position.x + key.delta.1)
      (p.position.y + key.delta.2) = true) :
    g.processEvent fs now (Event.KeyPressed key) =
      { g with currentState := GameState.GameOver, timeScale := 0,
               messageText := "GAME OVER!\nYou walked into a wall!\nPress R to Restart",
               player_ptr := some { p with active := false,
                                           facingDirection := { x := key.delta.1,
                                                                y := key.delta.2 } } } := by
  cases g
  simp only at hstate hp hwall
  subst hstate hp
  rcases hkey with rfl | rfl | rfl | rfl <;>
    simp [Game.processEvent, Game.playerActive, Player.handleInput, Player.tryMove, hact,
      Key.delta, Game.setGameOver, Game.destroyPlayer, Player.destroy] at hwall ⊢ <;>
    simp [hwall, Player.destroy]

theorem Game.move_into_wall_witness :
    (firstGame.processEvent noFiles 1 (Event.KeyPressed Key.A)).currentState =
      GameState.GameOver := by
  rw [Game.move_into_wall firstGame noFiles 1 (Player.new 1 1 0) Key.A rfl rfl rfl
    (by decide) (by decide)]

/-- C12: a shoot input of an active player. With the cooldown elapsed (`elapsed ≥ 0.3`) the
timer restarts and exactly one active projectile with velocity `facingDirection` is appended at
`position + facingDirection` when that cell is in bounds and not a wall, none otherwise; with
the cooldown not elapsed nothing changes. Position, score, facing direction and the map never
change and no game-over is signalled. -/
theorem Player.handleInput_shoot (p : Player) (level : Level) (bullets : List Bullet)
    (now : ℚ) (hact : p.active = true) :
    (now - p.shootTimer ≥ SHOOT_COOLDOWN →
        (p.handleInput Key.Space level bullets now).player = { p with shootTimer := now } ∧
        ((level.isValid (p.position.x + p.facingDirection.x)
              (p.position.y + p.facingDirection.y) = true ∧
            level.isWall (p.position.x + p.facingDirection.x)
              (p.position.y + p.facingDirection.y) = false) →
          (p.handleInput Key.Space level bullets now).bullets =
            bullets ++ [{ position := { x := p.position.x + p.facingDirection.x,
                                        y := p.position.y + p.facingDirection.y },
                          active := true, velocity := p.facingDirection, moveTimer := 0 }]) ∧
        (¬ (level.isValid (p.position.x + p.facingDirection.x)
              (p.position.y + p.facingDirection.y) = true ∧
            level.isWall (p.position.x + p.facingDirection.x)
              (p.position.y + p.facingDirection.y) = false) →
          (p.handleInput Key.Space level bullets now).bullets = bullets)) ∧
      (¬ now - p.shootTimer ≥ SHOOT_COOLDOWN →
        (p.handleInput Key.Space level bullets now).player = p ∧
        (p.handleInput Key.Space level bullets now).bullets = bullets) ∧
      (p.handleInput Key.Space level bullets now).player.position = p.position ∧
      (p.handleInput Key.Space level bullets now).player.score = p.score ∧
      (p.handleInput Key.Space level bullets now).player.facingDirection = p.facingDirection ∧
      (p.handleInput Key.Space level bullets now).player.active = true ∧
      (p.handleInput Key.Space level bullets now).level = level ∧
      (p.handleInput Key.Space level bullets now).gameOver = none := by
  by_cases hcool : now - p.shootTimer ≥ SHOOT_COOLDOWN
  · have hres : p.handleInput Key.Space level bullets now =
        { player := { p with shootTimer := now }, level := level,
          bullets := p.shoot bullets level, gameOver := none } := by
      simp [Player.handleInput, hact, hcool]
    rw [hres]
    refine ⟨fun _ => ⟨rfl, ?_, ?_⟩, fun h => absurd hcool h, rfl, rfl, rfl, hact, rfl, rfl⟩
    · rintro ⟨hv, hw⟩
      simp [Player.shoot, hv, hw, Bullet.new]
    · intro hblocked
      simp only [Player.shoot]
      split
      · rename_i hok
        exfalso
        apply hblocked
        simpa using hok
      · rfl
  · have hres : p.handleInput Key.Space level bullets now =
        { player := p, level := level, bullets := bullets, gameOver := none } := by
      simp [Player.handleInput, hact, hcool]
    rw [hres]
    exact ⟨fun h => absurd h hcool, fun _ => ⟨rfl, rfl⟩, rfl, rfl, rfl, hact, rfl, rfl⟩

theorem Player.handleInput_shoot_witness :
    ((Player.new 1 1 0).handleInput Key.Space shaftLevel [] 1).player =
        { Player.new 1 1 0 with shootTimer := 1 } ∧
      ((Player.new 1 1 0).handleInput Key.Space shaftLevel [] 1).bullets =
        [] ++ [{ position := { x := 1 + 0, y := 1 + -1 }, active := true,
                 velocity := { x := 0, y := -1 }, moveTimer := 0 }] :=
  ⟨((Player.handleInput_shoot (Player.new 1 1 0) shaftLevel [] 1 rfl).1
      (by with_unfolding_all decide)).1,
    ((Player.handleInput_shoot (Player.new 1 1 0) shaftLevel [] 1 rfl).1
      (by with_unfolding_all decide)).2.1 (by decide)⟩


/-! ## Enemy -/

theorem Enemy.tryMoveRandom_eq (e : Enemy) (level : Level) (rand : Nat → Nat) (k : Nat)
    (hact : e.active = true) :
    e.tryMoveRandom level rand k =
      match Enemy.direction (rand k) with
      | none => (e, false, k + 1)
      | some (dx, dy) =>
        if level.isValid (e.position.x + dx) (e.position.y + dy) &&
            !level.isWall (e.position.x + dx) (e.position.y + dy) &&
            !level.isItem (e.position.x + dx) (e.position.y + dy) then
          ({ e with position := { x := e.position.x + dx, y := e.position.y + dy } }, true, k + 1)
        else (e, false, k + 1) := by
  have hlt : rand k % 5 < 5 := Nat.mod_lt _ (by decide)
  have hcases : rand k % 5 = 0 ∨ rand k % 5 = 1 ∨ rand k % 5 = 2 ∨ rand k % 5 = 3 ∨
      rand k % 5 = 4 := by omega
  rcases hcases with h | h | h | h | h <;>
    simp [Enemy.tryMoveRandom, Enemy.direction, hact, h]

/-- C13: `Enemy::update` on an active enemy. When the move timer has reached the interval
(`≥ 1.0`) it draws once, restarts the timer and moves one cell in the direction selected by
the draw modulo 5 if that is not "stay" and the destination is in bounds, not a wall and not
an item tile; otherwise the position stays. Before the interval the enemy is unchanged and
nothing is drawn. -/
theorem Enemy.update_spec (e : Enemy) (now : ℚ) (level : Level) (rand : Nat → Nat) (k : Nat)
    (hact : e.active = true) :
    (now - e.moveTimer ≥ ENEMY_MOVE_INTERVAL →
        (e.update now level rand k).2 = k + 1 ∧
        (Enemy.direction (rand k) = none →
          (e.update now level rand k).1 = { e with moveTimer := now }) ∧
        (∀ dx dy : Int, Enemy.direction (rand k) = some (dx, dy) →
          ((level.isValid (e.position.x + dx) (e.position.y + dy) = true ∧
              level.isWall (e.position.x + dx) (e.position.y + dy) = false ∧
              level.isItem (e.position.x + dx) (e.position.y + dy) = false) →
            (e.update now level rand k).1 =
              { e with moveTimer := now,
                       position := { x := e.position.x + dx, y := e.position.y + dy } }) ∧
          (¬ (level.isValid (e.position.x + dx) (e.position.y + dy) = true ∧
              level.isWall (e.position.x + dx) (e.position.y + dy) = false ∧
              level.isItem (e.position.x + dx) (e.position.y + dy) = false) →
            (e.update now level rand k).1 = { e with moveTimer := now }))) ∧
      (¬ now - e.moveTimer ≥ ENEMY_MOVE_INTERVAL → e.update now level rand k = (e, k)) := by
  have htry := Enemy.tryMoveRandom_eq e level rand k hact
  constructor
  · intro hdue
    have hupd : e.update now level rand k =
        ({ (e.tryMoveRandom level rand k).1 with moveTimer := now },
          (e.tryMoveRandom level rand k).2.2) := by
      simp [Enemy.update, hact, hdue]
    rw [hupd, htry]
    refine ⟨?_, ?_, ?_⟩
    · cases Enemy.direction (rand k) with
      | none => rfl
      | some d =>
        obtain ⟨dx, dy⟩ := d
        dsimp only
        split <;> rfl
    · intro hnone
      rw [hnone]
    · intro dx dy hsome
      rw [hsome]
      dsimp only
      constructor
      · rintro ⟨hv, hw, hi⟩
        simp [hv, hw, hi]
      · intro hblocked
        split
        · rename_i hok
          exfalso
          apply hblocked
          simpa [and_assoc] using hok
        · rfl
  · intro hnot
    simp [Enemy.update, hact, hnot]

theorem Enemy.update_spec_witness :
    ((Enemy.new 1 1 0).update 1 shaftLevel (fun _ => 5) 0).1 =
      { Enemy.new 1 1 0 with moveTimer := 1, position := { x := 1 + 0, y := 1 + -1 } } :=
  (((Enemy.update_spec (Enemy.new 1 1 0) 1 shaftLevel (fun _ => 5) 0 rfl).1
    (by with_unfolding_all decide)).2.2 0 (-1) (by decide)).1 (by decide)

/-! ## Collision resolution: contact with an enemy -/

/-- C14: in phase Playing with an active player, an active enemy on the player's cell makes
`checkCollisions` end the session (GameOver, reason "Caught by an enemy!", `timeScale` 0,
player inactive) and touch nothing else: enemies, projectiles and score are as before. Outside
phase Playing, or without an active player, `checkCollisions` changes nothing. -/
theorem Game.checkCollisions_caught_or_idle (g : Game) :
    (∀ p : Player, g.currentState = GameState.Playing → g.player_ptr = some p →
        p.active = true →
        (∃ e ∈ g.enemies, e.active = true ∧ e.position = p.position) →
        g.checkCollisions =
          { g with currentState := GameState.GameOver, timeScale := 0,
                   messageText := "GAME OVER!\nCaught by an enemy!\nPress R to Restart",
                   player_ptr := some { p with active := false } }) ∧
      ((g.currentState ≠ GameState.Playing ∨ g.playerActive = false) →
        g.checkCollisions = g) := by
  constructor
  · intro p hstate hp hact hhit
    obtain ⟨e, hmem, hea, hepos⟩ := hhit
    have hany : g.enemies.any (fun e1 => e1.active && e1.position == p.position) = true :=
      List.any_eq_true.2 ⟨e, hmem, by simp [hea, hepos]⟩
    cases g
    simp only at hstate hp hany
    subst hstate hp
    simp [Game.checkCollisions, Game.playerActive, hact, hany, Game.setGameOver,
      Game.destroyPlayer, Player.destroy]
  · intro h
    rcases h with h | h
    · have : (g.currentState != GameState.Playing) = true := by simpa using h
      simp [Game.checkCollisions, this]
    · simp [Game.checkCollisions, h]

theorem Game.checkCollisions_caught_or_idle_witness :
    caughtGame.checkCollisions =
        { caughtGame with
            currentState := GameState.GameOver, timeScale := 0,
            messageText := "GAME OVER!\nCaught by an enemy!\nPress R to Restart",
            player_ptr := some (Player.new 1 1 0).destroy } ∧
      crashedGame.checkCollisions = crashedGame :=
  ⟨(Game.checkCollisions_caught_or_idle caughtGame).1 (Player.new 1 1 0) rfl rfl rfl
      ⟨Enemy.new 1 1 0, by decide, rfl, rfl⟩,
    (Game.checkCollisions_caught_or_idle crashedGame).2 (Or.inl (by decide))⟩

/-! ## Session: game over and pause -/

theorem Game.destroyPlayer_currentState (g : Game) :
    g.destroyPlayer.currentState = g.currentState := by
  unfold Game.destroyPlayer
  split
  · split <;> rfl
  · rfl

theorem Game.destroyPlayer_timeScale (g : Game) :
    g.destroyPlayer.timeScale = g.timeScale := by
  unfold Game.destroyPlayer
  split
  · split <;> rfl
  · rfl

theorem Game.setGameOver_currentState (g : Game) (message : String) :
    (g.setGameOver message).currentState ≠ GameState.Playing := by
  unfold Game.setGameOver
  split
  · rw [Game.destroyPlayer_currentState]
    simp
  · rename_i h
    simpa using h

/-- C15: outside phase Playing `setGameOver` changes nothing, and a second `setGameOver` after
a first one changes nothing: the first reason is kept. -/
theorem Game.setGameOver_sticky (g : Game) (m1 m2 : String) :
    (g.currentState ≠ GameState.Playing → g.setGameOver m1 = g) ∧
      (g.setGameOver m1).setGameOver m2 = g.setGameOver m1 := by
  have hout : ∀ (g1 : Game) (m : String), g1.currentState ≠ GameState.Playing →
      g1.setGameOver m = g1 := by
    intro g1 m h
    simp [Game.setGameOver, h]
  exact ⟨hout g m1, hout _ m2 (Game.setGameOver_currentState g m1)⟩

theorem Game.setGameOver_sticky_witness :
    crashedGame.setGameOver "again" = crashedGame ∧
      (firstGame.setGameOver "first").setGameOver "second" = firstGame.setGameOver "first" :=
  ⟨(Game.setGameOver_sticky crashedGame "again" "").1 (by decide),
    (Game.setGameOver_sticky firstGame "first" "second").2⟩


theorem Game.setGameOver_timeScale (g : Game) (message : String) :
    (g.setGameOver message).currentState = GameState.Playing →
      (g.setGameOver message).timeScale = 1 := by
  intro hp
  exact absurd hp (Game.setGameOver_currentState g message)

theorem Game.loadLevelBody_timeScale (recurse : Game → Game) (g : Game) (fs : Files) (now : ℚ)
    (levelNumber : Int)
    (hrec : ∀ g1 : Game, (g1.currentState = GameState.Playing → g1.timeScale = 1) →
      (recurse g1).currentState = GameState.Playing → (recurse g1).timeScale = 1)
    (h : g.currentState = GameState.Playing → g.timeScale = 1) :
    (Game.loadLevelBody recurse g fs now levelNumber).currentState = GameState.Playing →
      (Game.loadLevelBody recurse g fs now levelNumber).timeScale = 1 := by
  unfold Game.loadLevelBody
  dsimp only
  split
  · split
    · exact hrec _ h
    · exact Game.setGameOver_timeScale _ _
  · split
    · intro _; rfl
    · exact Game.setGameOver_timeScale _ _

theorem Game.loadLevel_timeScale (g : Game) (fs : Files) (now : ℚ) (levelNumber : Int)
    (h : g.currentState = GameState.Playing → g.timeScale = 1) :
    (g.loadLevel fs now levelNumber).currentState = GameState.Playing →
      (g.loadLevel fs now levelNumber).timeScale = 1 := by
  unfold Game.loadLevel
  apply Game.loadLevelBody_timeScale _ _ _ _ _ _ h
  intro g1 h1
  unfold Game.loadLevelFirst
  exact Game.loadLevelBody_timeScale _ _ _ _ _ (fun _ h2 => h2) h1

theorem Game.processEvent_timeScale (g : Game) (fs : Files) (now : ℚ) (event : Event)
    (h : g.currentState = GameState.Playing → g.timeScale = 1) :
    (g.processEvent fs now event).currentState = GameState.Playing →
      (g.processEvent fs now event).timeScale = 1 := by
  unfold Game.processEvent
  split
  · exact h
  · exact h
  · split
    · split
      · intro hp; simp at hp
      · split
        · intro _; rfl
        · exact h
    · split
      · unfold Game.resetGame
        exact Game.loadLevel_timeScale _ _ _ _ (fun _ => rfl)
      · split
        · split
          · exact h
          · dsimp only
            split
            · exact Game.setGameOver_timeScale _ _
            · exact h
        · exact h

theorem Game.processEvents_timeScale (fs : Files) (now : ℚ) (events : List Event) :
    ∀ g : Game, (g.currentState = GameState.Playing → g.timeScale = 1) →
      (g.processEvents fs now events).currentState = GameState.Playing →
      (g.processEvents fs now events).timeScale = 1 := by
  induction events with
  | nil => intro g h; exact h
  | cons event rest ih =>
    intro g h
    rw [Game.processEvents]
    split
    · exact ih _ (Game.processEvent_timeScale g fs now event h)
    · exact h

theorem Game.checkCollisions_timeScale (g : Game)
    (h : g.currentState = GameState.Playing → g.timeScale = 1) :
    g.checkCollisions.currentState = GameState.Playing →
      g.checkCollisions.timeScale = 1 := by
  unfold Game.checkCollisions
  split
  · exact h
  · split
    · exact h
    · dsimp only
      split
      · exact Game.setGameOver_timeScale _ _
      · exact h

theorem Game.checkProgress_timeScale (g : Game) (fs : Files) (now : ℚ)
    (h : g.currentState = GameState.Playing → g.timeScale = 1) :
    (g.checkProgress fs now).currentState = GameState.Playing →
      (g.checkProgress fs now).timeScale = 1 := by
  have hnext : (g.nextLevel fs now).currentState = GameState.Playing →
      (g.nextLevel fs now).timeScale = 1 := by
    unfold Game.nextLevel
    split
    · exact Game.loadLevel_timeScale _ _ _ _ h
    · split
      · intro hp
        simp [Game.setVictory, Game.destroyPlayer_currentState] at hp
      · exact h
  have hvic : g.setVictory.currentState = GameState.Playing → g.setVictory.timeScale = 1 := by
    intro hp
    simp [Game.setVictory, Game.destroyPlayer_currentState] at hp
  unfold Game.checkProgress
  dsimp only
  split
  · split
    · split <;> exact hnext
    · split <;> exact hvic
  · split <;> exact h

theorem Game.update_timeScale (g : Game) (fs : Files) (dt now : ℚ) (rand : Nat → Nat)
    (h : g.currentState = GameState.Playing → g.timeScale = 1) :
    (g.update fs dt now rand).currentState = GameState.Playing →
      (g.update fs dt now rand).timeScale = 1 := by
  have hcoll := Game.checkCollisions_timeScale (g.updateEntities dt now rand) h
  unfold Game.update
  split
  · exact h
  · dsimp only
    split
    · exact hcoll
    · exact Game.checkProgress_timeScale _ fs now hcoll

/-- In every reachable session in phase Playing the time scale is 1. -/
theorem Game.Reachable.playing_timeScale (g : Game) (hreach : Game.Reachable g) :
    g.currentState = GameState.Playing → g.timeScale = 1 := by
  induction hreach with
  | new texturesOk fs now =>
    unfold Game.new
    dsimp only
    split
    · intro hp; simp at hp
    · exact Game.loadLevel_timeScale _ _ _ _ (fun _ => rfl)
  | events g fs now events _ ih => exact Game.processEvents_timeScale fs now events g ih
  | update g fs dt now rand _ ih => exact Game.update_timeScale g fs dt now rand ih

/-- C16: a pause input turns Playing into Paused with `timeScale` 0, Paused into Playing with
`timeScale` 1, and changes nothing in GameOver or Victory; map, player (with the score),
enemies, projectiles and level index never change; two pause inputs from a reachable Playing
session restore phase and `timeScale`. -/
theorem Game.pause_input (g : Game) (fs : Files) (now : ℚ) :
    (g.currentState = GameState.Playing →
        g.processEvent fs now (Event.KeyPressed Key.P) =
          { g with currentState := GameState.Paused, timeScale := 0,
                   messageText := "PAUSED\nPress P" }) ∧
      (g.currentState = GameState.Paused →
        g.processEvent fs now (Event.KeyPressed Key.P) =
          { g with currentState := GameState.Playing, timeScale := 1, messageText := "" }) ∧
      ((g.currentState = GameState.GameOver ∨ g.currentState = GameState.Victory) →
        g.processEvent fs now (Event.KeyPressed Key.P) = g) ∧
      ((g.processEvent fs now (Event.KeyPressed Key.P)).currentLevelData = g.currentLevelData ∧
        (g.processEvent fs now (Event.KeyPressed Key.P)).player_ptr = g.player_ptr ∧
        (g.processEvent fs now (Event.KeyPressed Key.P)).enemies = g.enemies ∧
        (g.processEvent fs now (Event.KeyPressed Key.P)).bullets = g.bullets ∧
        (g.processEvent fs now (Event.KeyPressed Key.P)).currentLevelIndex =
          g.currentLevelIndex) ∧
      (Game.Reachable g → g.currentState = GameState.Playing →
        ((g.processEvent fs now (Event.KeyPressed Key.P)).processEvent fs now
            (Event.KeyPressed Key.P)).currentState = g.currentState ∧
        ((g.processEvent fs now (Event.KeyPressed Key.P)).processEvent fs now
            (Event.KeyPressed Key.P)).timeScale = g.timeScale) := by
  refine ⟨?_, ?_, ?_, ?_, ?_⟩
  · intro h
    simp [Game.processEvent, h]
  · intro h
    simp [Game.processEvent, h]
  · intro h
    rcases h with h | h <;> simp [Game.processEvent, h]
  · cases hs : g.currentState <;> simp [Game.processEvent, hs]
  · intro hreach h
    have hts := Game.Reachable.playing_timeScale g hreach h
    simp [Game.processEvent, h, hts]

theorem Game.pause_input_witness :
    ((firstGame.processEvent noFiles 1 (Event.KeyPressed Key.P)).processEvent noFiles 2
        (Event.KeyPressed Key.P)).currentState = GameState.Playing ∧
      (firstGame.processEvent noFiles 1 (Event.KeyPressed Key.P)).timeScale = 0 :=
  ⟨by
      rw [(Game.pause_input (firstGame.processEvent noFiles 1 (Event.KeyPressed Key.P))
        noFiles 2).2.1 (by decide)],
    by rw [(Game.pause_input firstGame noFiles 1).1 rfl]⟩


/-! ## Level: what a load stores -/

theorem Level.readLines_later (lines : List (List Char)) :
    ∀ (grid : List (List Char)) (tempWidth : Nat),
      (∀ l ∈ lines, l ≠ [] → l.length = tempWidth) →
      Level.readLines lines grid tempWidth false =
        (true, grid ++ lines.filter (fun line => !line.isEmpty), tempWidth) := by
  induction lines with
  | nil => intro grid tempWidth _; simp [Level.readLines]
  | cons line rest ih =>
    intro grid tempWidth h
    have hrest := ih (grid ++ [line]) tempWidth
      (fun l hl hne => h l (List.mem_cons_of_mem _ hl) hne)
    have hrest0 := ih grid tempWidth (fun l hl hne => h l (List.mem_cons_of_mem _ hl) hne)
    cases line with
    | nil => simp [Level.readLines, hrest0]
    | cons c cs =>
      have hlen := h (c :: cs) (List.mem_cons_self _ _) (by simp)
      rw [Level.readLines]
      simp only [List.isEmpty_cons, Bool.false_eq_true, if_false, hlen, bne_self_eq_false]
      rw [hrest]
      simp

theorem Level.readLines_first (lines : List (List Char)) :
    ∀ (grid : List (List Char)) (tempWidth w : Nat),
      (∀ l ∈ lines, l ≠ [] → l.length = w) →
      Level.readLines lines grid tempWidth true =
        (true, grid ++ lines.filter (fun line => !line.isEmpty),
          if lines.filter (fun line => !line.isEmpty) = [] then tempWidth else w) := by
  induction lines with
  | nil => intro grid tempWidth w _; simp [Level.readLines]
  | cons line rest ih =>
    intro grid tempWidth w h
    cases line with
    | nil =>
      have hrest := ih grid tempWidth w (fun l hl hne => h l (List.mem_cons_of_mem _ hl) hne)
      simp [Level.readLines, hrest]
    | cons c cs =>
      have hlen := h (c :: cs) (List.mem_cons_self _ _) (by simp)
      rw [Level.readLines]
      simp only [List.isEmpty_cons, Bool.false_eq_true, if_false, if_true]
      rw [Level.readLines_later rest _ _
        (fun l hl hne => (h l (List.mem_cons_of_mem _ hl) hne).trans hlen.symm)]
      simp [hlen]

theorem Level.loadFromFile_some (L : Level) (content : List Char)
    (hrows : sourceRows content ≠ [])
    (w : Nat) (hw : ∀ r ∈ sourceRows content, r.length = w) :
    L.loadFromFile (some content) =
      (true, { grid := sourceRows content, width := w,
               height := (sourceRows content).length }) := by
  have hall : ∀ l ∈ getLines content, l ≠ [] → l.length = w := by
    intro l hl hne
    apply hw
    unfold sourceRows
    apply List.mem_filter.2
    refine ⟨hl, ?_⟩
    cases l with
    | nil => exact absurd rfl hne
    | cons _ _ => rfl
  have hread := Level.readLines_first (getLines content) [] 0 w hall
  unfold sourceRows at hrows
  simp only [hrows, if_false, List.nil_append] at hread
  have hne : ((getLines content).filter (fun line => !line.isEmpty)).isEmpty = false := by
    cases hf : (getLines content).filter (fun line => !line.isEmpty) with
    | nil => exact absurd hf hrows
    | cons _ _ => rfl
  simp [Level.loadFromFile, hread, hne, sourceRows]

/-- C17 (as the code has it): on a readable source `loadFromFile` returns true exactly when
the source has a non-blank row and all its non-blank rows have one length; it then stores the
non-blank rows in order, their number as `height` and their common length as `width`. -/
theorem Level.loadFromFile_spec (L : Level) (content : List Char) :
    ((L.loadFromFile (some content)).1 = true ↔
        (sourceRows content ≠ [] ∧
          ∀ r1 ∈ sourceRows content, ∀ r2 ∈ sourceRows content, r1.length = r2.length)) ∧
      ((L.loadFromFile (some content)).1 = true →
        (L.loadFromFile (some content)).2.grid = sourceRows content ∧
        (L.loadFromFile (some content)).2.height = (sourceRows content).length ∧
        ∀ r ∈ sourceRows content, r.length = (L.loadFromFile (some content)).2.width) := by
  have hiff : (L.loadFromFile (some content)).1 = true ↔
      (sourceRows content ≠ [] ∧
        ∀ r1 ∈ sourceRows content, ∀ r2 ∈ sourceRows content, r1.length = r2.length) := by
    constructor
    · intro hok
      rcases hread : Level.readLines (getLines content) [] 0 true with ⟨ok, grid, w⟩
      cases ok with
      | false => simp [Level.loadFromFile, hread] at hok
      | true =>
        have hall := (Level.readLines_true _ _ _ _ _ _ hread).1
        have hfirst := Level.readLines_first (getLines content) [] 0 w hall
        rw [hread] at hfirst
        simp only [Prod.mk.injEq, true_and, List.nil_append] at hfirst
        constructor
        · intro hnil
          unfold sourceRows at hnil
          rw [hnil] at hfirst
          simp [Level.loadFromFile, hread, hfirst.1] at hok
        · intro r1 h1 r2 h2
          have m1 := List.mem_filter.1 h1
          have m2 := List.mem_filter.1 h2
          have n1 : r1 ≠ [] := by
            intro h; rw [h] at m1; simp at m1
          have n2 : r2 ≠ [] := by
            intro h; rw [h] at m2; simp at m2
          exact (hall r1 m1.1 n1).trans (hall r2 m2.1 n2).symm
    · rintro ⟨hne, hsame⟩
      cases hrows : sourceRows content with
      | nil => exact absurd hrows hne
      | cons r0 rest =>
        have hmem : r0 ∈ sourceRows content := by rw [hrows]; exact List.mem_cons_self _ _
        rw [Level.loadFromFile_some L content hne r0.length (fun r hr => hsame r hr r0 hmem)]
  refine ⟨hiff, ?_⟩
  intro hok
  obtain ⟨hne, hsame⟩ := hiff.1 hok
  cases hrows : sourceRows content with
  | nil => exact absurd hrows hne
  | cons r0 rest =>
    have hmem : r0 ∈ sourceRows content := by rw [hrows]; exact List.mem_cons_self _ _
    have hw : ∀ r ∈ sourceRows content, r.length = r0.length := fun r hr => hsame r hr r0 hmem
    rw [Level.loadFromFile_some L content hne r0.length hw]
    rw [← hrows]
    exact ⟨rfl, rfl, hw⟩

theorem Level.loadFromFile_spec_witness :
    (Level.new.loadFromFile (some squareSource)).2.grid = sourceRows squareSource ∧
      (Level.new.loadFromFile (some squareSource)).2.height = (sourceRows squareSource).length :=
  ⟨((Level.loadFromFile_spec Level.new squareSource).2 (by decide)).1,
    ((Level.loadFromFile_spec Level.new squareSource).2 (by decide)).2.1⟩

/-- C17 (as stated) fails: a source with a blank line between two rows of length 2 has lines
of unequal length, yet `loadFromFile` returns true and stores two rows, not its three lines. -/
theorem Level.loadFromFile_skips_blank_line :
    getLines blankLineSource = [['a', 'b'], [], ['c', 'd']] ∧
      (Level.new.loadFromFile (some blankLineSource)).1 = true ∧
      (Level.new.loadFromFile (some blankLineSource)).2.grid = [['a', 'b'], ['c', 'd']] ∧
      (Level.new.loadFromFile (some blankLineSource)).2.height = 2 := by
  decide

/-- C18 (evaluation): after a successful load of a two-by-two level, a failed load of a ragged
source leaves a reachable level with one stored row but `height` 2, so that `isValid` accepts
`(0, 1)` although the grid has no row 1. -/
theorem Level.failed_load_breaks_shape :
    Level.Reachable staleLevel ∧
      staleLevel.grid = [['a', 'b']] ∧ staleLevel.width = 2 ∧ staleLevel.height = 2 ∧
      staleLevel.grid.length ≠ staleLevel.height ∧
      staleLevel.isValid 0 1 = true ∧ ¬ (1 < staleLevel.grid.length) := by
  refine ⟨?_, by decide, by decide, by decide, by decide, by decide, by decide⟩
  exact Level.Reachable.load _ _ (Level.Reachable.load _ _ Level.Reachable.new)


/-! ## Level: saving and loading again -/

theorem getLinesAux_no_newline (cs : List Char) :
    ∀ cur : List Char, (∀ c ∈ cur, c ≠ Char.ofNat 10) →
      ∀ l ∈ getLinesAux cs cur, ∀ c ∈ l, c ≠ Char.ofNat 10 := by
  induction cs with
  | nil =>
    intro cur hcur l hl c hc
    simp only [getLinesAux] at hl
    split at hl
    · simp at hl
    · simp only [List.mem_singleton] at hl
      subst hl
      exact hcur c (List.mem_reverse.1 hc)
  | cons a rest ih =>
    intro cur hcur l hl c hc
    simp only [getLinesAux] at hl
    split at hl
    · rcases List.mem_cons.1 hl with rfl | hl
      · exact hcur c (List.mem_reverse.1 hc)
      · exact ih [] (by simp) l hl c hc
    · rename_i hne
      refine ih (a :: cur) ?_ l hl c hc
      intro c1 hc1
      rcases List.mem_cons.1 hc1 with rfl | hc1
      · exact hne
      · exact hcur c1 hc1

theorem getLinesAux_row (row rest : List Char) (hrow : ∀ c ∈ row, c ≠ Char.ofNat 10) :
    ∀ cur : List Char,
      getLinesAux (row ++ Char.ofNat 10 :: rest) cur =
        (cur.reverse ++ row) :: getLinesAux rest [] := by
  induction row with
  | nil => intro cur; simp [getLinesAux]
  | cons a as ih =>
    intro cur
    have ha : a ≠ Char.ofNat 10 := hrow a (List.mem_cons_self _ _)
    have hrec := ih (fun c hc => hrow c (List.mem_cons_of_mem _ hc)) (a :: cur)
    rw [List.cons_append, getLinesAux, if_neg ha, hrec]
    simp

theorem getLines_rows (rows : List (List Char))
    (hrows : ∀ r ∈ rows, ∀ c ∈ r, c ≠ Char.ofNat 10) :
    getLines ((rows.map (fun row => row ++ [Char.ofNat 10])).flatten) = rows := by
  unfold getLines
  induction rows with
  | nil => simp [getLinesAux]
  | cons r rest ih =>
    have hr := hrows r (List.mem_cons_self _ _)
    have hrest := ih (fun r1 h1 => hrows r1 (List.mem_cons_of_mem _ h1))
    simp only [List.map_cons, List.flatten_cons, List.append_assoc, List.singleton_append]
    rw [getLinesAux_row r _ hr []]
    simp [hrest]

theorem sourceRows_clean (content : List Char) :
    ∀ r ∈ sourceRows content, r ≠ [] ∧ ∀ c ∈ r, c ≠ Char.ofNat 10 := by
  intro r hr
  obtain ⟨hmem, hne⟩ := List.mem_filter.1 hr
  constructor
  · intro h
    rw [h] at hne
    simp at hne
  · exact getLinesAux_no_newline content [] (by simp) r hmem

/-- C19: the text that `saveToFile` writes for a level that was loaded successfully loads
again, into any `Level`, with success and gives the same grid, width and height. -/
theorem Level.save_load_roundtrip (L0 L1 : Level) (content : List Char)
    (hload : (L0.loadFromFile (some content)).1 = true) :
    L1.loadFromFile (some (L0.loadFromFile (some content)).2.saveToFile) =
      (true, (L0.loadFromFile (some content)).2) := by
  obtain ⟨hne, hsame⟩ := (Level.loadFromFile_spec L0 content).1.1 hload
  cases hrows : sourceRows content with
  | nil => exact absurd hrows hne
  | cons r0 rest =>
    have hmem : r0 ∈ sourceRows content := by rw [hrows]; exact List.mem_cons_self _ _
    have hw : ∀ r ∈ sourceRows content, r.length = r0.length := fun r hr => hsame r hr r0 hmem
    have hL := Level.loadFromFile_some L0 content hne r0.length hw
    have hclean := sourceRows_clean content
    have hlines : getLines (Level.saveToFile
        { grid := sourceRows content, width := r0.length,
          height := (sourceRows content).length }) = sourceRows content :=
      getLines_rows _ (fun r hr => (hclean r hr).2)
    have hfilter : sourceRows (Level.saveToFile
        { grid := sourceRows content, width := r0.length,
          height := (sourceRows content).length }) = sourceRows content := by
      rw [sourceRows, hlines]
      apply List.filter_eq_self.2
      intro r hr
      have := (hclean r hr).1
      cases r with
      | nil => exact absurd rfl this
      | cons _ _ => rfl
    rw [hL]
    dsimp only
    rw [Level.loadFromFile_some L1 _ (by rw [hfilter]; exact hne) r0.length
      (by rw [hfilter]; exact hw), hfilter]

theorem Level.save_load_roundtrip_witness :
    Level.new.loadFromFile
        (some (Level.new.loadFromFile (some blankLineSource)).2.saveToFile) =
      (true, (Level.new.loadFromFile (some blankLineSource)).2) :=
  Level.save_load_roundtrip Level.new Level.new blankLineSource (by decide)


/-! ## Session: loading a level -/

theorem Level.loadFromFile_fst_indep (L L1 : Level) (file : Option (List Char)) :
    (L.loadFromFile file).1 = (L1.loadFromFile file).1 := by
  cases file with
  | none => rfl
  | some content =>
    rcases hread : Level.readLines (getLines content) [] 0 true with ⟨ok, grid, w⟩
    cases ok <;> simp only [Level.loadFromFile, hread]

theorem Level.loadFromFile_snd_indep (L L1 : Level) (file : Option (List Char))
    (hok : (L.loadFromFile file).1 = true) :
    (L.loadFromFile file).2 = (L1.loadFromFile file).2 := by
  cases file with
  | none => simp [Level.loadFromFile] at hok
  | some content =>
    rcases hread : Level.readLines (getLines content) [] 0 true with ⟨ok, grid, w⟩
    cases ok with
    | false => simp [Level.loadFromFile, hread] at hok
    | true =>
      simp only [Level.loadFromFile, hread]

theorem Game.loadLevelFuel_first (fuel : Nat) (g : Game) (fs : Files) (now : ℚ) :
    Game.loadLevelFuel (fuel + 1) g fs now 1 = some (g.loadLevelFirst fs now) := by
  simp only [Game.loadLevelFuel, Game.loadLevelFirst, Game.loadLevelBody, bne_self_eq_false,
    Bool.false_eq_true, if_false]
  split
  · rfl
  · split <;> rfl

theorem Game.loadLevelFuel_eq (fuel : Nat) (g : Game) (fs : Files) (now : ℚ) (n : Int) :
    Game.loadLevelFuel (fuel + 2) g fs now n = some (g.loadLevel fs now n) := by
  rw [Game.loadLevelFuel]
  simp only [Game.loadLevel, Game.loadLevelBody, Game.loadLevelFuel_first]
  split
  · split <;> rfl
  · split <;> rfl

/-- C20: for a session in phase Playing with a player, `loadLevel(n)` with `n ≠ 1` whose source
fails to load while the source of level 1 loads ends with level 1 set up (index 1, phase
Playing, `timeScale` 1, the map of level 1, its enemies, no projectile); `loadLevel(1)` whose
source fails to load ends in GameOver with the reason "FATAL: Cannot load level1.txt!"; and
`loadLevel` returns within two nested calls, that is after at most one fallback call. -/
theorem Game.loadLevel_fallback (g : Game) (fs : Files) (now : ℚ) (n : Int) (p : Player)
    (hstate : g.currentState = GameState.Playing) (hp : g.player_ptr = some p) :
    (n ≠ 1 → (g.currentLevelData.loadFromFile (fs (levelFileName n))).1 = false →
        (g.currentLevelData.loadFromFile (fs (levelFileName 1))).1 = true →
        (g.loadLevel fs now n).currentLevelIndex = 1 ∧
        (g.loadLevel fs now n).currentState = GameState.Playing ∧
        (g.loadLevel fs now n).timeScale = 1 ∧
        (g.loadLevel fs now n).currentLevelData =
          (g.currentLevelData.loadFromFile (fs (levelFileName 1))).2 ∧
        (g.loadLevel fs now n).bullets = [] ∧
        (g.loadLevel fs now n).enemies =
          Game.spawnEnemies (g.currentLevelData.loadFromFile (fs (levelFileName 1))).2 now ∧
        (g.loadLevel fs now n).player_ptr =
          some ((p.reset now).setPosition
            (Game.playerStart (g.currentLevelData.loadFromFile (fs (levelFileName 1))).2).x
            (Game.playerStart (g.currentLevelData.loadFromFile (fs (levelFileName 1))).2).y)) ∧
      ((g.currentLevelData.loadFromFile (fs (levelFileName 1))).1 = false →
        (g.loadLevel fs now 1).currentState = GameState.GameOver ∧
        (g.loadLevel fs now 1).timeScale = 0 ∧
        (g.loadLevel fs now 1).messageText =
          "GAME OVER!\nFATAL: Cannot load level1.txt!\nPress R to Restart") ∧
      (∀ fuel : Nat, Game.loadLevelFuel (fuel + 2) g fs now n = some (g.loadLevel fs now n)) ∧
      (∀ fuel : Nat, Game.loadLevelFuel (fuel + 1) g fs now 1 = some (g.loadLevel fs now 1)) := by
  refine ⟨?_, ?_, fun fuel => Game.loadLevelFuel_eq fuel g fs now n, ?_⟩
  · intro hn hfail hok
    have hn1 : (n != 1) = true := by simpa using hn
    have hok1 : ((g.currentLevelData.loadFromFile (fs (levelFileName n))).2.loadFromFile
        (fs (levelFileName 1))).1 = true := by
      rw [Level.loadFromFile_fst_indep _ g.currentLevelData]; exact hok
    have hsnd := Level.loadFromFile_snd_indep _
      (g.currentLevelData.loadFromFile (fs (levelFileName n))).2 _ hok
    simp [Game.loadLevel, Game.loadLevelBody, Game.loadLevelFirst, hfail, hn1, hok1, hp,
      Game.setupLevel, Game.updateUI, hsnd]
  · intro hfail
    simp [Game.loadLevel, Game.loadLevelBody, hfail, Game.setGameOver, hstate,
      Game.destroyPlayer_currentState, Game.destroyPlayer_timeScale, Game.destroyPlayer, hp]
    by_cases hpa : p.active = true <;> simp [hpa]
  · intro fuel
    rw [Game.loadLevelFuel_first]
    simp [Game.loadLevel, Game.loadLevelFirst, Game.loadLevelBody]

theorem Game.loadLevel_fallback_witness :
    (firstGame.loadLevel corridorFiles 1 2).currentLevelIndex = 1 ∧
      (firstGame.loadLevel noFiles 1 1).currentState = GameState.GameOver :=
  ⟨((Game.loadLevel_fallback firstGame corridorFiles 1 2 (Player.new 1 1 0) rfl rfl).1
      (by decide) (by decide) (by decide)).1,
    ((Game.loadLevel_fallback firstGame noFiles 1 1 (Player.new 1 1 0) rfl rfl).2.1
      (by decide)).1⟩


/-! ## Level: writing a cell -/

theorem Level.WellShaped.stored (L : Level) (hshape : L.WellShaped) (x y : Int)
    (hv : L.isValid x y = true) :
    y.toNat < L.grid.length ∧ x.toNat < (L.grid.getD y.toNat []).length := by
  obtain ⟨hx0, hx1, hy0, hy1⟩ := (Level.isValid_iff L x y).1 hv
  have hy : y.toNat < L.grid.length := by rw [hshape.1]; omega
  refine ⟨hy, ?_⟩
  have hrow : L.grid.getD y.toNat [] = L.grid[y.toNat] := by
    simp [List.getD_eq_getElem?_getD, List.getElem?_eq_getElem hy]
  rw [hrow, hshape.2 _ (List.getElem_mem hy)]
  omega

theorem Level.WellShaped.setCell (L : Level) (hshape : L.WellShaped) (x y : Int) (c : Char) :
    (L.setCell x y c).WellShaped := by
  unfold Level.setCell
  split
  · constructor
    · simpa using hshape.1
    · intro row hrow
      rcases List.mem_or_eq_of_mem_set hrow with h | h
      · exact hshape.2 row h
      · rw [h, List.length_set]
        by_cases hy : y.toNat < L.grid.length
        · have hr : L.grid.getD y.toNat [] = L.grid[y.toNat] := by
            simp [List.getD_eq_getElem?_getD, List.getElem?_eq_getElem hy]
          rw [hr]
          exact hshape.2 _ (List.getElem_mem hy)
        · exfalso
          rename_i hv
          have := (Level.isValid_iff L x y).1 hv
          rw [hshape.1] at hy
          omega
  · exact hshape

/-- The contract of `setCell` where the stored grid has the shape its dimensions announce:
outside the bounds the level stays as it is; inside the bounds of a level with `height` rows of
length `width`, `getCell(x,y)` returns the written character afterwards and every other cell,
`width`, `height` and the shape are unchanged. -/
theorem Level.setCell_spec (L : Level) (x y : Int) (c : Char) :
    (L.isValid x y = false → L.setCell x y c = L) ∧
      (L.WellShaped → L.isValid x y = true →
        (L.setCell x y c).getCell x y = c ∧
        (∀ x1 y1 : Int, ¬ (x1 = x ∧ y1 = y) →
          (L.setCell x y c).getCell x1 y1 = L.getCell x1 y1) ∧
        (L.setCell x y c).width = L.width ∧
        (L.setCell x y c).height = L.height ∧
        (L.setCell x y c).WellShaped) := by
  constructor
  · intro h
    simp [Level.setCell, h]
  · intro hshape hv
    have hstored := Level.WellShaped.stored L hshape x y hv
    have hnew := Level.gridAt_setCell L x y x y c hv
    simp only [hstored.1, hstored.2, and_self, if_true] at hnew
    refine ⟨?_, ?_, ?_, ?_, Level.WellShaped.setCell L hshape x y c⟩
    · simp [Level.getCell, Level.isValid_setCell, hv, hnew]
    · intro x1 y1 hne
      simp only [Level.getCell, Level.isValid_setCell]
      by_cases hv1 : L.isValid x1 y1 = true
      · have hb := (Level.isValid_iff L x1 y1).1 hv1
        have hd := (Level.isValid_iff L x y).1 hv
        rw [Level.gridAt_setCell L x y x1 y1 c hv]
        have : ¬ (y.toNat = y1.toNat ∧ x.toNat = x1.toNat ∧ y.toNat < L.grid.length ∧
            x.toNat < (L.grid.getD y.toNat []).length) := by
          rintro ⟨h1, h2, _, _⟩
          apply hne
          constructor <;> omega
        rw [if_neg this]
      · simp [hv1]
    · simp only [Level.setCell, hv, if_true]
    · simp only [Level.setCell, hv, if_true]

theorem Level.setCell_spec_witness :
    squareLevel.setCell 2 0 'z' = squareLevel ∧ (squareLevel.setCell 1 0 'z').getCell 1 0 = 'z' :=
  ⟨(Level.setCell_spec squareLevel 2 0 'z').1 (by decide),
    ((Level.setCell_spec squareLevel 1 0 'z').2 ⟨rfl, by decide⟩ (by decide)).1⟩

/-- C23: `cleanupEntities` keeps exactly the active projectiles and enemies, unaltered and in
their original order, and changes nothing else in the session. -/
theorem Game.cleanupEntities_spec (g : Game) :
    g.cleanupEntities.bullets.Sublist g.bullets ∧
      (∀ b ∈ g.cleanupEntities.bullets, b.active = true) ∧
      (∀ b : Bullet, b.active = true →
        g.cleanupEntities.bullets.count b = g.bullets.count b) ∧
      g.cleanupEntities.enemies.Sublist g.enemies ∧
      (∀ e ∈ g.cleanupEntities.enemies, e.active = true) ∧
      (∀ e : Enemy, e.active = true →
        g.cleanupEntities.enemies.count e = g.enemies.count e) ∧
      g.cleanupEntities =
        { g with bullets := g.cleanupEntities.bullets,
                 enemies := g.cleanupEntities.enemies } := by
  refine ⟨List.filter_sublist _, ?_, ?_, List.filter_sublist _, ?_, ?_, rfl⟩
  · intro b hb
    exact (List.mem_filter.1 hb).2
  · intro b hb
    simp only [Game.cleanupEntities]
    rw [List.count_filter]
    exact hb
  · intro e he
    exact (List.mem_filter.1 he).2
  · intro e he
    simp only [Game.cleanupEntities]
    rw [List.count_filter]
    exact he

/-! ## Player: the boundary branch -/

theorem Level.isWall_of_not_isValid (L : Level) (x y : Int) (h : L.isValid x y = false) :
    L.isWall x y = true := by
  simp [Level.isWall, h]

/-- C24: `Player::tryMove` never signals "You fell off the edge!", neither directly nor through
`handleInput`: whenever the destination is out of bounds an active player gets the wall
reason. -/
theorem Player.tryMove_never_falls_off (p : Player) (level : Level) (bullets : List Bullet)
    (dx dy : Int) :
    (p.tryMove dx dy level bullets).gameOver ≠ some "You fell off the edge!" ∧
      (∀ (key : Key) (now : ℚ),
        (p.handleInput key level bullets now).gameOver ≠ some "You fell off the edge!") ∧
      (p.active = true → level.isValid (p.position.x + dx) (p.position.y + dy) = false →
        (p.tryMove dx dy level bullets).gameOver = some "You walked into a wall!") := by
  have htry : ∀ (q : Player) (ex ey : Int),
      (q.tryMove ex ey level bullets).gameOver ≠ some "You fell off the edge!" := by
    intro q ex ey
    unfold Player.tryMove
    split
    · simp
    · dsimp only
      split
      · intro h
        simp only [Option.some.injEq] at h
        exact absurd h (by decide)
      · rename_i hw
        split
        · rename_i hv
          exfalso
          apply hw
          apply Level.isWall_of_not_isValid
          simpa using hv
        · split <;> simp
  refine ⟨htry p dx dy, ?_, ?_⟩
  · intro key now
    unfold Player.handleInput
    dsimp only
    split
    · simp
    · split
      · split
        · exact htry _ _ _
        · simp
      · split
        · exact htry _ _ _
        · simp
      · split
        · exact htry _ _ _
        · simp
      · split
        · exact htry _ _ _
        · simp
      · split <;> simp
      · simp
  · intro hact hv
    simp [Player.tryMove, hact, Level.isWall_of_not_isValid level _ _ hv]


/-! ## Level setup: the player's start cell -/

theorem Level.loadFromFile_wellShaped (L : Level) (content : List Char)
    (hok : (L.loadFromFile (some content)).1 = true) :
    (L.loadFromFile (some content)).2.WellShaped := by
  obtain ⟨hgrid, hheight, hwidth⟩ := (Level.loadFromFile_spec L content).2 hok
  constructor
  · rw [hgrid, hheight]
  · intro row hrow
    rw [hgrid] at hrow
    exact hwidth row hrow

theorem Level.isValid_of_mem_cells (L : Level) (c : Nat × Nat) (hc : c ∈ L.cells) :
    L.isValid (Int.ofNat c.1) (Int.ofNat c.2) = true := by
  obtain ⟨hx, hy⟩ := (Level.mem_cells L c.1 c.2).1 hc
  rw [Level.isValid_iff]
  simp only [Int.ofNat_eq_coe]
  omega

theorem Level.find_cells_some (L : Level) (good : Int → Int → Bool) (c : Nat × Nat)
    (h : L.cells.find? (fun c => good (Int.ofNat c.1) (Int.ofNat c.2)) = some c) :
    L.FirstCell good { x := Int.ofNat c.1, y := Int.ofNat c.2 } := by
  obtain ⟨hgood, as, bs, hsplit, hbefore⟩ := List.find?_eq_some.1 h
  have hmem : c ∈ L.cells := by rw [hsplit]; simp
  have hpw := Level.cells_pairwise L
  rw [hsplit, List.pairwise_append] at hpw
  obtain ⟨_, hcb, _⟩ := hpw
  have hafter := (List.pairwise_cons.1 hcb).1
  refine ⟨Level.isValid_of_mem_cells L c hmem, hgood, ?_⟩
  intro x y hv hlt
  simp only [Int.ofNat_eq_coe] at hlt
  obtain ⟨hx0, hx1, hy0, hy1⟩ := (Level.isValid_iff L x y).1 hv
  have hxy : (x.toNat, y.toNat) ∈ L.cells := by
    rw [Level.mem_cells]
    constructor <;> omega
  have ex : Int.ofNat x.toNat = x := Int.toNat_of_nonneg hx0
  have ey : Int.ofNat y.toNat = y := Int.toNat_of_nonneg hy0
  rw [hsplit] at hxy
  rcases List.mem_append.1 hxy with hin | hin
  · have := hbefore _ hin
    simp only [ex, ey] at this
    simpa using this
  · rcases List.mem_cons.1 hin with heq | hin
    · exfalso
      have h1 : x.toNat = c.1 := congrArg Prod.fst heq
      have h2 : y.toNat = c.2 := congrArg Prod.snd heq
      omega
    · exfalso
      have := hafter _ hin
      simp only at this
      omega

theorem Level.find_cells_none (L : Level) (good : Int → Int → Bool)
    (h : L.cells.find? (fun c => good (Int.ofNat c.1) (Int.ofNat c.2)) = none) :
    ∀ x y : Int, L.isValid x y = true → good x y = false := by
  intro x y hv
  obtain ⟨hx0, hx1, hy0, hy1⟩ := (Level.isValid_iff L x y).1 hv
  have hxy : (x.toNat, y.toNat) ∈ L.cells := by
    rw [Level.mem_cells]
    constructor <;> omega
  have ex : Int.ofNat x.toNat = x := Int.toNat_of_nonneg hx0
  have ey : Int.ofNat y.toNat = y := Int.toNat_of_nonneg hy0
  have := List.find?_eq_none.1 h _ hxy
  simp only [ex, ey] at this
  simpa using this

theorem Level.find_cells_congr (L : Level) (f g : Int → Int → Bool)
    (hfg : ∀ x y : Int, L.isValid x y = true → f x y = g x y) :
    L.cells.find? (fun c => f (Int.ofNat c.1) (Int.ofNat c.2)) =
      L.cells.find? (fun c => g (Int.ofNat c.1) (Int.ofNat c.2)) := by
  have : ∀ l : List (Nat × Nat), (∀ c ∈ l, c ∈ L.cells) →
      l.find? (fun c => f (Int.ofNat c.1) (Int.ofNat c.2)) =
        l.find? (fun c => g (Int.ofNat c.1) (Int.ofNat c.2)) := by
    intro l
    induction l with
    | nil => intro _; rfl
    | cons a rest ih =>
      intro hl
      have ha := hfg _ _ (Level.isValid_of_mem_cells L a (hl a (List.mem_cons_self _ _)))
      simp only [List.find?_cons, ha]
      rw [ih (fun c hc => hl c (List.mem_cons_of_mem _ hc))]
  exact this L.cells (fun _ h => h)

theorem Level.gridAt_eq_getCell (L : Level) (x y : Int) (hv : L.isValid x y = true) :
    L.gridAt x y = L.getCell x y := by
  simp [Level.getCell, hv]

/-- C22: after `setupLevel` (with a player present) the player stands on the first
player-marker cell in row-major order if the map has one; otherwise on `(1,1)` if that is not
a wall; otherwise on the first non-wall cell in row-major order if there is one; otherwise
on `(0,0)`. -/
theorem Game.setupLevel_player_position (g : Game) (now : ℚ) (p : Player)
    (hp : g.player_ptr = some p) :
    ∃ q : Player, (g.setupLevel now).player_ptr = some q ∧
      ((∃ x y : Int, g.currentLevelData.isValid x y = true ∧
          g.currentLevelData.getCell x y = PLAYER_CHAR) →
        g.currentLevelData.FirstCell
          (fun x y => g.currentLevelData.getCell x y == PLAYER_CHAR) q.position) ∧
      ((¬ ∃ x y : Int, g.currentLevelData.isValid x y = true ∧
          g.currentLevelData.getCell x y = PLAYER_CHAR) →
        (g.currentLevelData.isWall 1 1 = false → q.position = { x := 1, y := 1 }) ∧
        (g.currentLevelData.isWall 1 1 = true →
          ((∃ x y : Int, g.currentLevelData.isValid x y = true ∧
              g.currentLevelData.isWall x y = false) →
            g.currentLevelData.FirstCell
              (fun x y => !g.currentLevelData.isWall x y) q.position) ∧
          ((¬ ∃ x y : Int, g.currentLevelData.isValid x y = true ∧
              g.currentLevelData.isWall x y = false) →
            q.position = { x := 0, y := 0 }))) := by
  have hq : (g.setupLevel now).player_ptr =
      some ((p.reset now).setPosition (Game.playerStart g.currentLevelData).x
        (Game.playerStart g.currentLevelData).y) := by
    simp [Game.setupLevel, hp, Game.updateUI]
  refine ⟨_, hq, ?_⟩
  have hpos : ((p.reset now).setPosition (Game.playerStart g.currentLevelData).x
      (Game.playerStart g.currentLevelData).y).position = Game.playerStart g.currentLevelData :=
    rfl
  rw [hpos]
  have hmark : g.currentLevelData.cells.find?
        (fun c => g.currentLevelData.gridAt (Int.ofNat c.1) (Int.ofNat c.2) == PLAYER_CHAR) =
      g.currentLevelData.cells.find?
        (fun c => g.currentLevelData.getCell (Int.ofNat c.1) (Int.ofNat c.2) == PLAYER_CHAR) :=
    Level.find_cells_congr g.currentLevelData
      (fun x y => g.currentLevelData.gridAt x y == PLAYER_CHAR)
      (fun x y => g.currentLevelData.getCell x y == PLAYER_CHAR)
      (fun x y hv => by
        show (g.currentLevelData.gridAt x y == PLAYER_CHAR) = _
        rw [Level.gridAt_eq_getCell _ _ _ hv])
  cases hfind : g.currentLevelData.cells.find?
      (fun c => g.currentLevelData.getCell (Int.ofNat c.1) (Int.ofNat c.2) == PLAYER_CHAR) with
  | some c =>
    have hfirst := Level.find_cells_some g.currentLevelData
      (fun x y => g.currentLevelData.getCell x y == PLAYER_CHAR) c hfind
    have hfc : g.currentLevelData.findChar PLAYER_CHAR =
        { x := Int.ofNat c.1, y := Int.ofNat c.2 } := by
      unfold Level.findChar
      rw [hmark, hfind]
    have hx : (Int.ofNat c.1 == (-1 : Int)) = false := by
      rw [beq_eq_false_iff_ne]
      intro h
      simp only [Int.ofNat_eq_coe] at h
      omega
    have hstart : Game.playerStart g.currentLevelData =
        { x := Int.ofNat c.1, y := Int.ofNat c.2 } := by
      unfold Game.playerStart
      rw [hfc]
      simp only [hx, Bool.false_eq_true, if_false]
    rw [hstart]
    constructor
    · intro _; exact hfirst
    · intro hno
      exfalso
      apply hno
      exact ⟨_, _, hfirst.1, by simpa using hfirst.2.1⟩
  | none =>
    have hnone := Level.find_cells_none g.currentLevelData
      (fun x y => g.currentLevelData.getCell x y == PLAYER_CHAR) hfind
    have hfc : g.currentLevelData.findChar PLAYER_CHAR = { x := -1, y := -1 } := by
      unfold Level.findChar
      rw [hmark, hfind]
    constructor
    · rintro ⟨x, y, hv, hcell⟩
      have := hnone x y hv
      simp [hcell] at this
    · intro _
      constructor
      · intro hw
        unfold Game.playerStart
        rw [hfc]
        simp only [beq_self_eq_true, if_true, hw, Bool.false_eq_true, if_false]
      · intro hw
        cases hfree : g.currentLevelData.cells.find?
            (fun c => !g.currentLevelData.isWall (Int.ofNat c.1) (Int.ofNat c.2)) with
        | some c =>
          have hfirst := Level.find_cells_some g.currentLevelData
            (fun x y => !g.currentLevelData.isWall x y) c hfree
          have hstart : Game.playerStart g.currentLevelData =
              { x := Int.ofNat c.1, y := Int.ofNat c.2 } := by
            unfold Game.playerStart
            rw [hfc]
            simp only [beq_self_eq_true, if_true, hw, hfree]
          rw [hstart]
          constructor
          · intro _; exact hfirst
          · intro hno
            exfalso
            apply hno
            exact ⟨_, _, hfirst.1, by simpa using hfirst.2.1⟩
        | none =>
          have hnonef := Level.find_cells_none g.currentLevelData
            (fun x y => !g.currentLevelData.isWall x y) hfree
          have hstart : Game.playerStart g.currentLevelData = { x := 0, y := 0 } := by
            unfold Game.playerStart
            rw [hfc]
            simp only [beq_self_eq_true, if_true, hw, hfree]
          rw [hstart]
          constructor
          · rintro ⟨x, y, hv, hcell⟩
            have := hnonef x y hv
            simp [hcell] at this
          · intro _; rfl

theorem Game.setupLevel_player_position_witness :
    ∃ q : Player, (itemGame.setupLevel 0).player_ptr = some q ∧
      itemLevel.FirstCell (fun x y => itemLevel.getCell x y == PLAYER_CHAR) q.position := by
  obtain ⟨q, hq, hmarker, _⟩ :=
    Game.setupLevel_player_position itemGame 0 (Player.new 1 1 0) rfl
  exact ⟨q, hq, hmarker ⟨1, 1, by decide, by decide⟩⟩


/-! ## Session: the phases that occur -/

theorem Game.setGameOver_not_complete (g : Game) (message : String)
    (h : g.currentState ≠ GameState.LevelComplete) :
    (g.setGameOver message).currentState ≠ GameState.LevelComplete := by
  unfold Game.setGameOver
  split
  · rw [Game.destroyPlayer_currentState]
    simp
  · exact h

theorem Game.loadLevelBody_not_complete (recurse : Game → Game) (g : Game) (fs : Files)
    (now : ℚ) (levelNumber : Int)
    (hrec : ∀ g1 : Game, g1.currentState ≠ GameState.LevelComplete →
      (recurse g1).currentState ≠ GameState.LevelComplete)
    (h : g.currentState ≠ GameState.LevelComplete) :
    (Game.loadLevelBody recurse g fs now levelNumber).currentState ≠
      GameState.LevelComplete := by
  unfold Game.loadLevelBody
  dsimp only
  split
  · split
    · exact hrec _ h
    · exact Game.setGameOver_not_complete _ _ h
  · split
    · simp
    · exact Game.setGameOver_not_complete _ _ h

theorem Game.loadLevel_not_complete (g : Game) (fs : Files) (now : ℚ) (levelNumber : Int)
    (h : g.currentState ≠ GameState.LevelComplete) :
    (g.loadLevel fs now levelNumber).currentState ≠ GameState.LevelComplete := by
  unfold Game.loadLevel
  apply Game.loadLevelBody_not_complete _ _ _ _ _ _ h
  intro g1 h1
  unfold Game.loadLevelFirst
  exact Game.loadLevelBody_not_complete _ _ _ _ _ (fun _ h2 => h2) h1

theorem Game.setVictory_not_complete (g : Game) :
    g.setVictory.currentState ≠ GameState.LevelComplete := by
  simp [Game.setVictory, Game.destroyPlayer_currentState]

theorem Game.nextLevel_not_complete (g : Game) (fs : Files) (now : ℚ)
    (h : g.currentState ≠ GameState.LevelComplete) :
    (g.nextLevel fs now).currentState ≠ GameState.LevelComplete := by
  unfold Game.nextLevel
  split
  · exact Game.loadLevel_not_complete _ _ _ _ h
  · split
    · exact Game.setVictory_not_complete g
    · exact h

theorem Game.resetGame_not_complete (g : Game) (fs : Files) (now : ℚ) :
    (g.resetGame fs now).currentState ≠ GameState.LevelComplete := by
  unfold Game.resetGame
  exact Game.loadLevel_not_complete _ _ _ _ (by simp)

theorem Game.processEvent_not_complete (g : Game) (fs : Files) (now : ℚ) (event : Event)
    (h : g.currentState ≠ GameState.LevelComplete) :
    (g.processEvent fs now event).currentState ≠ GameState.LevelComplete := by
  unfold Game.processEvent
  split
  · exact h
  · exact h
  · split
    · split
      · simp
      · split
        · simp
        · exact h
    · split
      · exact Game.resetGame_not_complete g fs now
      · split
        · split
          · exact h
          · dsimp only
            split
            · exact Game.setGameOver_not_complete _ _ h
            · exact h
        · exact h

theorem Game.processEvents_not_complete (fs : Files) (now : ℚ) (events : List Event) :
    ∀ g : Game, g.currentState ≠ GameState.LevelComplete →
      (g.processEvents fs now events).currentState ≠ GameState.LevelComplete := by
  induction events with
  | nil => intro g h; exact h
  | cons event rest ih =>
    intro g h
    rw [Game.processEvents]
    split
    · exact ih _ (Game.processEvent_not_complete g fs now event h)
    · exact h

theorem Game.checkCollisions_not_complete (g : Game)
    (h : g.currentState ≠ GameState.LevelComplete) :
    g.checkCollisions.currentState ≠ GameState.LevelComplete := by
  unfold Game.checkCollisions
  split
  · exact h
  · split
    · exact h
    · dsimp only
      split
      · exact Game.setGameOver_not_complete _ _ h
      · exact h

theorem Game.checkProgress_not_complete (g : Game) (fs : Files) (now : ℚ)
    (h : g.currentState ≠ GameState.LevelComplete) :
    (g.checkProgress fs now).currentState ≠ GameState.LevelComplete := by
  have hnext := Game.nextLevel_not_complete g fs now h
  have hvic := Game.setVictory_not_complete g
  unfold Game.checkProgress
  dsimp only
  split
  · split
    · split <;> exact hnext
    · split <;> exact hvic
  · split <;> exact h

theorem Game.update_not_complete (g : Game) (fs : Files) (dt now : ℚ) (rand : Nat → Nat)
    (h : g.currentState ≠ GameState.LevelComplete) :
    (g.update fs dt now rand).currentState ≠ GameState.LevelComplete := by
  have hcoll := Game.checkCollisions_not_complete (g.updateEntities dt now rand) h
  unfold Game.update
  split
  · exact h
  · dsimp only
    split
    · exact hcoll
    · exact Game.checkProgress_not_complete _ fs now hcoll

theorem Game.new_not_complete (texturesOk : Bool) (fs : Files) (now : ℚ) :
    (Game.new texturesOk fs now).currentState ≠ GameState.LevelComplete := by
  unfold Game.new
  dsimp only
  split
  · simp
  · exact Game.loadLevel_not_complete _ _ _ _ (by simp)

/-- C25: every session reached from the constructed `Game` through `processEvents` and
`update` steps is in phase Playing, Paused, GameOver or Victory, never LevelComplete; a level
load, a level advance, a restart or a game-over call on such a session does not enter
LevelComplete either. -/
theorem Game.Reachable.never_levelComplete (g : Game) (hreach : Game.Reachable g) :
    (g.currentState = GameState.Playing ∨ g.currentState = GameState.Paused ∨
        g.currentState = GameState.GameOver ∨ g.currentState = GameState.Victory) ∧
      (∀ (fs : Files) (now : ℚ) (n : Int),
        (g.loadLevel fs now n).currentState ≠ GameState.LevelComplete) ∧
      (∀ (fs : Files) (now : ℚ), (g.nextLevel fs now).currentState ≠ GameState.LevelComplete) ∧
      (∀ (fs : Files) (now : ℚ), (g.resetGame fs now).currentState ≠ GameState.LevelComplete) ∧
      (∀ message : String, (g.setGameOver message).currentState ≠ GameState.LevelComplete) := by
  have hne : g.currentState ≠ GameState.LevelComplete := by
    induction hreach with
    | new texturesOk fs now => exact Game.new_not_complete texturesOk fs now
    | events g fs now events _ ih => exact Game.processEvents_not_complete fs now events g ih
    | update g fs dt now rand _ ih => exact Game.update_not_complete g fs dt now rand ih
  refine ⟨?_, fun fs now n => Game.loadLevel_not_complete g fs now n hne,
    fun fs now => Game.nextLevel_not_complete g fs now hne,
    fun fs now => Game.resetGame_not_complete g fs now,
    fun message => Game.setGameOver_not_complete g message hne⟩
  cases hs : g.currentState with
  | Playing => exact Or.inl rfl
  | Paused => exact Or.inr (Or.inl rfl)
  | GameOver => exact Or.inr (Or.inr (Or.inl rfl))
  | Victory => exact Or.inr (Or.inr (Or.inr rfl))
  | LevelComplete => exact absurd hs hne

theorem Game.Reachable.never_levelComplete_witness :
    crashedGame.currentState = GameState.Playing ∨
      crashedGame.currentState = GameState.Paused ∨
      crashedGame.currentState = GameState.GameOver ∨
      crashedGame.currentState = GameState.Victory :=
  (Game.Reachable.never_levelComplete crashedGame
    (Game.Reachable.events _ _ _ _ (Game.Reachable.new true corridorFiles 0))).1

/-! ## Level load: the score -/

theorem Game.updateUI_player_ptr (g : Game) : g.updateUI.player_ptr = g.player_ptr := rfl

theorem Game.checkProgress_advance (c : Game) (fs : Files) (now : ℚ)
    (hen : c.enemies = []) (hst : c.currentState = GameState.Playing)
    (hidx : c.currentLevelIndex < c.totalLevels) :
    (c.checkProgress fs now).player_ptr =
      (Game.loadLevel { c with currentLevelIndex := c.currentLevelIndex + 1 } fs now
        (c.currentLevelIndex + 1)).player_ptr := by
  have hnext : c.nextLevel fs now =
      Game.loadLevel { c with currentLevelIndex := c.currentLevelIndex + 1 } fs now
        (c.currentLevelIndex + 1) := by
    simp [Game.nextLevel, hidx]
  rw [← hnext]
  simp only [Game.checkProgress, hen, hst, hidx, List.any_nil, Bool.not_false, beq_self_eq_true,
    Bool.and_self, if_true]
  split <;> rfl

theorem Game.update_to_checkProgress (g : Game) (fs : Files) (dt now : ℚ) (rand : Nat → Nat)
    (hstate : g.currentState = GameState.Playing)
    (hpa : g.playerActive = true)
    (hnone : (g.updateEntities dt now rand).checkCollisions.cleanupEntities.enemies = []) :
    ∃ q : Player,
      g.update fs dt now rand =
        (g.updateEntities dt now rand).checkCollisions.cleanupEntities.checkProgress fs now ∧
      (g.updateEntities dt now rand).checkCollisions.cleanupEntities.currentState =
        GameState.Playing ∧
      (g.updateEntities dt now rand).checkCollisions.cleanupEntities.currentLevelIndex =
        g.currentLevelIndex ∧
      (g.updateEntities dt now rand).checkCollisions.cleanupEntities.totalLevels =
        g.totalLevels ∧
      (g.updateEntities dt now rand).checkCollisions.cleanupEntities.currentLevelData =
        g.currentLevelData ∧
      (g.updateEntities dt now rand).checkCollisions.cleanupEntities.player_ptr = some q := by
  obtain ⟨p, hp, hpact⟩ : ∃ p, g.player_ptr = some p ∧ p.active = true := by
    cases hpp : g.player_ptr with
    | none => simp [Game.playerActive, hpp] at hpa
    | some p => exact ⟨p, rfl, by simpa [Game.playerActive, hpp] using hpa⟩
  have hcoll : (g.updateEntities dt now rand).checkCollisions.currentState
      = GameState.Playing := by
    by_contra hne
    exact Game.checkCollisions_caught (g.updateEntities dt now rand) p hstate hp hpact hne hnone
  have hmid := Game.checkCollisions_of_playing (g.updateEntities dt now rand) p hstate hp hpact
    hcoll
  obtain ⟨q, hq, _⟩ := bulletsVsEnemies_player_active (g.updateEntities dt now rand).bullets
    (g.updateEntities dt now rand).enemies p
  refine ⟨q, ?_, hcoll, ?_, ?_, ?_, ?_⟩
  · simp [Game.update, hstate, hpa, hcoll]
  · show (g.updateEntities dt now rand).checkCollisions.currentLevelIndex = _
    rw [hmid]; rfl
  · show (g.updateEntities dt now rand).checkCollisions.totalLevels = _
    rw [hmid]; rfl
  · show (g.updateEntities dt now rand).checkCollisions.currentLevelData = _
    rw [hmid]; rfl
  · show (g.updateEntities dt now rand).checkCollisions.player_ptr = _
    rw [hmid]; exact hq

theorem Game.loadLevel_score (g : Game) (fs : Files) (now : ℚ) (n : Int) (p : Player)
    (hp : g.player_ptr = some p)
    (hload : (g.currentLevelData.loadFromFile (fs (levelFileName n))).1 = true) :
    ∃ q : Player, (g.loadLevel fs now n).player_ptr = some q ∧ q.score = 0 := by
  simp [Game.loadLevel, Game.loadLevelBody, hload, hp, Game.setupLevel, Game.updateUI,
    Player.reset, Player.setPosition]

/-- C26: every successful level load leaves the player's score at 0, and so does an update
step that clears a level which is not the last and loads the next one successfully, whatever
the score was before. -/
theorem Game.load_resets_score (g : Game) (fs : Files) (dt now : ℚ) (rand : Nat → Nat) :
    (∀ (n : Int) (p : Player), g.player_ptr = some p →
        (g.currentLevelData.loadFromFile (fs (levelFileName n))).1 = true →
        ∃ q : Player, (g.loadLevel fs now n).player_ptr = some q ∧ q.score = 0) ∧
      (g.currentState = GameState.Playing → g.playerActive = true →
        (g.updateEntities dt now rand).checkCollisions.cleanupEntities.enemies = [] →
        g.currentLevelIndex < g.totalLevels →
        (g.currentLevelData.loadFromFile
          (fs (levelFileName (g.currentLevelIndex + 1)))).1 = true →
        ∃ q : Player, (g.update fs dt now rand).player_ptr = some q ∧ q.score = 0) := by
  constructor
  · intro n p hp hload
    exact Game.loadLevel_score g fs now n p hp hload
  · intro hstate hpa hnone hidx hload
    obtain ⟨q, hupd, hst, hi, ht, hl, hq⟩ :=
      Game.update_to_checkProgress g fs dt now rand hstate hpa hnone
    rw [hupd, Game.checkProgress_advance _ fs now hnone hst (by rw [hi, ht]; exact hidx), hi]
    exact Game.loadLevel_score _ fs now _ q hq (by
      show ((g.updateEntities dt now rand).checkCollisions.cleanupEntities.currentLevelData.loadFromFile
        _).1 = true
      rw [hl]; exact hload)

theorem Game.load_resets_score_witness :
    (∃ q : Player, (crashedGame.loadLevel corridorFiles 2 1).player_ptr = some q ∧
        q.score = 0) ∧
      ∃ q : Player, (firstGame.update twoLevels (1 / 60) 0 stayDraws).player_ptr = some q ∧
        q.score = 0 :=
  ⟨(Game.load_resets_score crashedGame corridorFiles 0 2 stayDraws).1 1
      { position := { x := 2, y := 1 }, active := false, score := 10,
        facingDirection := { x := 0, y := -1 }, shootTimer := 0 }
      (by decide) (by decide),
    (Game.load_resets_score firstGame twoLevels (1 / 60) 0 stayDraws).2 rfl rfl
      (by with_unfolding_all decide) (by decide) (by decide)⟩


/-! ## Enemies stay on free cells -/

theorem Enemy.update_stays_free (e : Enemy) (now : ℚ) (level : Level) (rand : Nat → Nat)
    (k : Nat) (h : level.FreeCell e.position) :
    level.FreeCell (e.update now level rand k).1.position := by
  unfold Enemy.update
  split
  · exact h
  · rename_i hact
    have hact1 : e.active = true := by simpa using hact
    split
    · dsimp only
      rw [Enemy.tryMoveRandom_eq e level rand k hact1]
      cases Enemy.direction (rand k) with
      | none => exact h
      | some d =>
        obtain ⟨dx, dy⟩ := d
        dsimp only
        split
        · rename_i hok
          simp only [Bool.and_eq_true, Bool.not_eq_true'] at hok
          exact ⟨hok.1.1, hok.1.2, hok.2⟩
        · exact h
    · exact h

theorem updateEnemies_freeCell (now : ℚ) (level : Level) (rand : Nat → Nat)
    (es : List Enemy) :
    ∀ k : Nat, (∀ e ∈ es, level.FreeCell e.position) →
      ∀ e ∈ updateEnemies now level rand k es, level.FreeCell e.position := by
  induction es with
  | nil => intro k _ e he; simp [updateEnemies] at he
  | cons a rest ih =>
    intro k h e he
    have ha := h a (List.mem_cons_self _ _)
    have hrest : ∀ e ∈ rest, level.FreeCell e.position :=
      fun e1 h1 => h e1 (List.mem_cons_of_mem _ h1)
    rw [updateEnemies] at he
    split at he
    · rcases List.mem_cons.1 he with rfl | he
      · exact Enemy.update_stays_free a now level rand k ha
      · exact ih _ hrest e he
    · rcases List.mem_cons.1 he with rfl | he
      · exact ha
      · exact ih _ hrest e he

theorem hitFirstEnemy_positions (bPos : Vector2i) (es : List Enemy) :
    ∀ es1 : List Enemy, hitFirstEnemy bPos es = some es1 →
      ∀ e1 ∈ es1, ∃ e ∈ es, e1.position = e.position := by
  induction es with
  | nil => intro es1 h; simp [hitFirstEnemy] at h
  | cons a rest ih =>
    intro es1 h e1 he1
    rw [hitFirstEnemy] at h
    split at h
    · simp only [Option.some.injEq] at h
      subst h
      rcases List.mem_cons.1 he1 with rfl | he1
      · exact ⟨a, List.mem_cons_self _ _, rfl⟩
      · exact ⟨e1, List.mem_cons_of_mem _ he1, rfl⟩
    · cases hrec : hitFirstEnemy bPos rest with
      | none => simp [hrec] at h
      | some es2 =>
        simp only [hrec, Option.map_some', Option.some.injEq] at h
        subst h
        rcases List.mem_cons.1 he1 with rfl | he1
        · exact ⟨e1, List.mem_cons_self _ _, rfl⟩
        · obtain ⟨e, he, hpos⟩ := ih es2 hrec e1 he1
          exact ⟨e, List.mem_cons_of_mem _ he, hpos⟩

theorem bulletsVsEnemies_positions (bs : List Bullet) :
    ∀ (es : List Enemy) (pl : Option Player),
      ∀ e1 ∈ (bulletsVsEnemies bs es pl).2.1, ∃ e ∈ es, e1.position = e.position := by
  induction bs with
  | nil => intro es pl e1 he1; exact ⟨e1, he1, rfl⟩
  | cons b rest ih =>
    intro es pl e1 he1
    rw [bulletsVsEnemies] at he1
    split at he1
    · exact ih es pl e1 he1
    · split at he1
      · rename_i es2 hhit
        obtain ⟨e2, he2, hpos2⟩ := ih es2 _ e1 he1
        obtain ⟨e, he, hpos⟩ := hitFirstEnemy_positions b.position es es2 hhit e2 he2
        exact ⟨e, he, hpos2.trans hpos⟩
      · exact ih es pl e1 he1

theorem Game.destroyPlayer_enemies (g : Game) :
    g.destroyPlayer.enemies = g.enemies ∧
      g.destroyPlayer.currentLevelData = g.currentLevelData := by
  unfold Game.destroyPlayer
  split
  · split <;> exact ⟨rfl, rfl⟩
  · exact ⟨rfl, rfl⟩

theorem Game.setGameOver_enemies (g : Game) (message : String) :
    (g.setGameOver message).enemies = g.enemies ∧
      (g.setGameOver message).currentLevelData = g.currentLevelData := by
  unfold Game.setGameOver
  split
  · exact Game.destroyPlayer_enemies _
  · exact ⟨rfl, rfl⟩

theorem Game.checkCollisions_freeCell (g : Game)
    (h : ∀ e ∈ g.enemies, g.currentLevelData.FreeCell e.position) :
    ∀ e ∈ g.checkCollisions.enemies, g.checkCollisions.currentLevelData.FreeCell e.position := by
  unfold Game.checkCollisions
  split
  · exact h
  · split
    · exact h
    · dsimp only
      split
      · rw [(Game.setGameOver_enemies g _).1, (Game.setGameOver_enemies g _).2]
        exact h
      · intro e1 he1
        obtain ⟨e, he, hpos⟩ := bulletsVsEnemies_positions _ _ _ e1 he1
        show g.currentLevelData.FreeCell e1.position
        rw [hpos]
        exact h e he

theorem Game.setupLevel_freeCell (g : Game) (now : ℚ) :
    ∀ e ∈ (g.setupLevel now).enemies, (g.setupLevel now).currentLevelData.FreeCell e.position := by
  unfold Game.setupLevel
  dsimp only
  split
  · intro e he
    simp at he
  · intro e he
    have hspawn : g.currentLevelData.isEnemySpawn e.position.x e.position.y = true :=
      (Game.spawnEnemies_mem g.currentLevelData now e.position.x e.position.y).1 ⟨e, he, rfl⟩
    have hv : g.currentLevelData.isValid e.position.x e.position.y = true := by
      by_contra hn
      simp [Level.isEnemySpawn, hn] at hspawn
    have hcell : g.currentLevelData.gridAt e.position.x e.position.y = ENEMY_CHAR := by
      simpa [Level.isEnemySpawn, hv] using hspawn
    show g.currentLevelData.FreeCell e.position
    refine ⟨hv, ?_, ?_⟩
    · simp [Level.isWall, hv, hcell, ENEMY_CHAR, WALL_CHAR]
    · simp [Level.isItem, hv, hcell, ENEMY_CHAR, ITEM_CHAR]

theorem Game.loadLevelBody_freeCell (recurse : Game → Game) (g : Game) (fs : Files) (now : ℚ)
    (levelNumber : Int)
    (hrec : ∀ g1 : Game, g1.enemies = [] →
      ∀ e ∈ (recurse g1).enemies, (recurse g1).currentLevelData.FreeCell e.position)
    (h : g.enemies = []) :
    ∀ e ∈ (Game.loadLevelBody recurse g fs now levelNumber).enemies,
      (Game.loadLevelBody recurse g fs now levelNumber).currentLevelData.FreeCell
        e.position := by
  unfold Game.loadLevelBody
  dsimp only
  split
  · split
    · exact hrec _ h
    · rw [(Game.setGameOver_enemies _ _).1]
      intro e he
      rw [h] at he
      simp at he
  · split
    · exact Game.setupLevel_freeCell _ now
    · rw [(Game.setGameOver_enemies _ _).1]
      intro e he
      rw [h] at he
      simp at he

theorem Game.loadLevel_freeCell (g : Game) (fs : Files) (now : ℚ) (levelNumber : Int)
    (h : g.enemies = []) :
    ∀ e ∈ (g.loadLevel fs now levelNumber).enemies,
      (g.loadLevel fs now levelNumber).currentLevelData.FreeCell e.position := by
  unfold Game.loadLevel
  apply Game.loadLevelBody_freeCell _ _ _ _ _ _ h
  intro g1 h1
  unfold Game.loadLevelFirst
  apply Game.loadLevelBody_freeCell _ _ _ _ _ _ h1
  intro g2 h2 e he
  rw [id, h2] at he
  simp at he

theorem Game.checkProgress_freeCell (c : Game) (fs : Files) (now : ℚ)
    (hact : ∀ e ∈ c.enemies, e.active = true)
    (h : ∀ e ∈ c.enemies, c.currentLevelData.FreeCell e.position) :
    ∀ e ∈ (c.checkProgress fs now).enemies,
      (c.checkProgress fs now).currentLevelData.FreeCell e.position := by
  have hempty : (c.enemies.any (fun e => e.active)) = false → c.enemies = [] := by
    intro hany
    cases hen : c.enemies with
    | nil => rfl
    | cons a rest =>
      exfalso
      have ha : a.active = true := hact a (by rw [hen]; exact List.mem_cons_self _ _)
      rw [hen] at hany
      simp [ha] at hany
  have hnext : (c.enemies.any (fun e => e.active)) = false →
      ∀ e ∈ (c.nextLevel fs now).enemies,
        (c.nextLevel fs now).currentLevelData.FreeCell e.position := by
    intro hany
    unfold Game.nextLevel
    split
    · exact Game.loadLevel_freeCell _ fs now _ (hempty hany)
    · split
      · simp only [Game.setVictory]
        rw [(Game.destroyPlayer_enemies _).1, (Game.destroyPlayer_enemies _).2]
        exact h
      · exact h
  have hvic : ∀ e ∈ c.setVictory.enemies, c.setVictory.currentLevelData.FreeCell e.position := by
    simp only [Game.setVictory]
    rw [(Game.destroyPlayer_enemies _).1, (Game.destroyPlayer_enemies _).2]
    exact h
  unfold Game.checkProgress
  dsimp only
  split
  · rename_i hcond
    have hany : (c.enemies.any (fun e => e.active)) = false := by
      simp only [Bool.and_eq_true, Bool.not_eq_true'] at hcond
      exact hcond.1
    split
    · split <;> exact hnext hany
    · split <;> exact hvic
  · split <;> exact h

theorem Game.update_freeCell (g : Game) (fs : Files) (dt now : ℚ) (rand : Nat → Nat)
    (h : ∀ e ∈ g.enemies, g.currentLevelData.FreeCell e.position) :
    ∀ e ∈ (g.update fs dt now rand).enemies,
      (g.update fs dt now rand).currentLevelData.FreeCell e.position := by
  have hent : ∀ e ∈ (g.updateEntities dt now rand).enemies,
      (g.updateEntities dt now rand).currentLevelData.FreeCell e.position :=
    updateEnemies_freeCell now g.currentLevelData rand g.enemies 0 h
  have hcoll := Game.checkCollisions_freeCell _ hent
  unfold Game.update
  split
  · exact h
  · dsimp only
    split
    · exact hcoll
    · apply Game.checkProgress_freeCell
      · intro e he
        exact (List.mem_filter.1 he).2
      · intro e he
        exact hcoll e (List.mem_filter.1 he).1

theorem Level.FreeCell.setCell_path (L : Level) (x y : Int) (v : Vector2i)
    (h : L.FreeCell v) : (L.setCell x y PATH_CHAR).FreeCell v := by
  by_cases hv : L.isValid x y = true
  · obtain ⟨h1, h2, h3⟩ := h
    have hg := Level.gridAt_setCell L x y v.x v.y PATH_CHAR hv
    have hw : L.gridAt v.x v.y ≠ WALL_CHAR := by
      intro hc
      simp [Level.isWall, h1, hc] at h2
    have hi : L.gridAt v.x v.y ≠ ITEM_CHAR := by
      intro hc
      simp [Level.isItem, h1, hc] at h3
    refine ⟨by rw [Level.isValid_setCell]; exact h1, ?_, ?_⟩
    · simp only [Level.isWall, Level.isValid_setCell, h1, Bool.not_true, Bool.false_eq_true,
        if_false]
      rw [hg]
      split
      · decide
      · simpa using hw
    · simp only [Level.isItem, Level.isValid_setCell, h1, Bool.not_true, Bool.false_eq_true,
        if_false]
      rw [hg]
      split
      · decide
      · simpa using hi
  · have : L.setCell x y PATH_CHAR = L := by
      simp [Level.setCell, hv]
    rw [this]
    exact h

theorem Player.tryMove_level (p : Player) (dx dy : Int) (level : Level)
    (bullets : List Bullet) :
    (p.tryMove dx dy level bullets).level = level ∨
      ∃ x y : Int, (p.tryMove dx dy level bullets).level = level.setCell x y PATH_CHAR := by
  unfold Player.tryMove
  split
  · exact Or.inl rfl
  · dsimp only
    split
    · exact Or.inl rfl
    · split
      · exact Or.inl rfl
      · split
        · exact Or.inr ⟨_, _, rfl⟩
        · exact Or.inl rfl

theorem Player.handleInput_level (p : Player) (key : Key) (level : Level)
    (bullets : List Bullet) (now : ℚ) :
    (p.handleInput key level bullets now).level = level ∨
      ∃ x y : Int, (p.handleInput key level bullets now).level =
        level.setCell x y PATH_CHAR := by
  unfold Player.handleInput
  dsimp only
  split
  · exact Or.inl rfl
  · split
    · split
      · exact Player.tryMove_level _ _ _ _ _
      · exact Or.inl rfl
    · split
      · exact Player.tryMove_level _ _ _ _ _
      · exact Or.inl rfl
    · split
      · exact Player.tryMove_level _ _ _ _ _
      · exact Or.inl rfl
    · split
      · exact Player.tryMove_level _ _ _ _ _
      · exact Or.inl rfl
    · split <;> exact Or.inl rfl
    · exact Or.inl rfl

theorem Game.processEvent_freeCell (g : Game) (fs : Files) (now : ℚ) (event : Event)
    (hnot : ¬ (event = Event.KeyPressed Key.R ∧
      (g.currentState = GameState.GameOver ∨ g.currentState = GameState.Victory)))
    (h : ∀ e ∈ g.enemies, g.currentLevelData.FreeCell e.position) :
    ∀ e ∈ (g.processEvent fs now event).enemies,
      (g.processEvent fs now event).currentLevelData.FreeCell e.position := by
  unfold Game.processEvent
  split
  · exact h
  · exact h
  · rename_i code
    split
    · split
      · exact h
      · split
        · exact h
        · exact h
    · split
      · rename_i hr
        exfalso
        apply hnot
        simp only [Bool.and_eq_true, Bool.or_eq_true, beq_iff_eq] at hr
        exact ⟨by rw [hr.2], hr.1⟩
      · split
        · split
          · exact h
          · rename_i p _
            have hlevel : ∀ e ∈ g.enemies,
                (p.handleInput code g.currentLevelData g.bullets now).level.FreeCell
                  e.position := by
              intro e he
              rcases Player.handleInput_level p code g.currentLevelData g.bullets now with
                hl | ⟨x, y, hl⟩
              · rw [hl]; exact h e he
              · rw [hl]; exact Level.FreeCell.setCell_path _ x y _ (h e he)
            dsimp only
            split
            · rw [(Game.setGameOver_enemies _ _).1, (Game.setGameOver_enemies _ _).2]
              exact hlevel
            · exact hlevel
        · exact h

/-- C27: starting from the state that `setupLevel` produces, after any sequence of player
inputs (any event that is not a restart) and update steps every enemy of the collection stands
on an in-bounds cell of the current map that is neither a wall nor an item tile. -/
theorem Game.enemies_on_free_cells (g0 : Game) (now0 : ℚ) (g : Game)
    (hplay : Game.PlaysFrom (g0.setupLevel now0) g) :
    ∀ e ∈ g.enemies,
      g.currentLevelData.isValid e.position.x e.position.y = true ∧
        g.currentLevelData.isWall e.position.x e.position.y = false ∧
        g.currentLevelData.isItem e.position.x e.position.y = false := by
  have hinv : ∀ e ∈ g.enemies, g.currentLevelData.FreeCell e.position := by
    induction hplay with
    | start => exact Game.setupLevel_freeCell g0 now0
    | input g1 fs now event hnot _ ih => exact Game.processEvent_freeCell g1 fs now event hnot ih
    | update g1 fs dt now rand _ ih => exact Game.update_freeCell g1 fs dt now rand ih
  exact hinv

theorem Game.enemies_on_free_cells_witness :
    ((itemGame.setupLevel 0).processEvent noFiles 1
        (Event.KeyPressed Key.D)).currentLevelData.isValid 3 1 = true ∧
      ((itemGame.setupLevel 0).processEvent noFiles 1
        (Event.KeyPressed Key.D)).currentLevelData.isWall 3 1 = false ∧
      ((itemGame.setupLevel 0).processEvent noFiles 1
        (Event.KeyPressed Key.D)).currentLevelData.isItem 3 1 = false :=
  Game.enemies_on_free_cells itemGame 0 _
    (Game.PlaysFrom.input _ noFiles 1 (Event.KeyPressed Key.D) (by decide)
      Game.PlaysFrom.start)
    (Enemy.new 3 1 0) (by decide)


end MazeGame
